import Mathlib

/-!
Shallow embedding of the `kekeke` payments engine
(`src/account.rs`, `src/transaction.rs`, `src/payments.rs`, `src/output.rs`).

Modelling conventions:
* `rust_decimal::Decimal` values are modelled as exact rationals (`ℚ`);
  the engine only adds, subtracts and compares them.
* `u16` client ids and `u32` transaction ids are modelled as `ℕ`; the
  16-bit range bound appears as an explicit hypothesis where it matters.
* The `HashMap<u32, Action>` is modelled as an association list with
  at most one binding per key maintained by `insertAction`
  (HashMap.insert replaces an existing binding).
* `Payments::process_transaction` returns `Option Payments`: `none`
  marks the two control paths that are not ordinary termination —
  the unchecked account indexing going out of bounds and the
  `unreachable!()` arm of the inner dispatch.
-/

namespace Kekeke

/-- `Account` from `src/account.rs`: per-client balances. -/
structure Account where
  total : ℚ
  held : ℚ
  is_locked : Bool
  has_activity : Bool
deriving DecidableEq

/-- `Account::get_available`: `total - held`. -/
def Account.getAvailable (a : Account) : ℚ := a.total - a.held

/-- `Account::default()`: zeroed, unlocked, inactive. -/
def Account.initial : Account := ⟨0, 0, false, false⟩

/-- `ActionKind` from `src/transaction.rs`. -/
inductive ActionKind where
  | Deposit (amount : ℚ)
  | Withdrawal (amount : ℚ)
deriving DecidableEq

/-- `ActionStatus` from `src/transaction.rs`. -/
inductive ActionStatus where
  | Fresh
  | Disputed
  | Final
deriving DecidableEq

/-- `Action` from `src/transaction.rs`: remembered deposit/withdrawal. -/
structure Action where
  cid : ℕ
  kind : ActionKind
  status : ActionStatus
deriving DecidableEq

/-- `TransactionKind` from `src/transaction.rs`. -/
inductive TransactionKind where
  | Deposit (amount : ℚ)
  | Withdrawal (amount : ℚ)
  | Dispute
  | Resolve
  | Chargeback
deriving DecidableEq

/-- `Transaction` from `src/transaction.rs`. -/
structure Transaction where
  tid : ℕ
  cid : ℕ
  kind : TransactionKind
deriving DecidableEq

/-- The amount carried by an action (`ActionKind`'s payload). -/
def actionAmount : ActionKind → ℚ
  | .Deposit amount => amount
  | .Withdrawal amount => amount

/-- Lookup in the association list modelling `HashMap<u32, Action>`. -/
def lookupAction : List (ℕ × Action) → ℕ → Option Action
  | [], _ => none
  | kv :: rest, k => if kv.1 = k then some kv.2 else lookupAction rest k

/-- Remove all bindings of a key (auxiliary to `insertAction`). -/
def removeAction : List (ℕ × Action) → ℕ → List (ℕ × Action)
  | [], _ => []
  | kv :: rest, k =>
    if kv.1 = k then removeAction rest k else kv :: removeAction rest k

/-- `HashMap::insert`: bind `k` to `a`, replacing any existing binding. -/
def insertAction (m : List (ℕ × Action)) (k : ℕ) (a : Action) :
    List (ℕ × Action) :=
  (k, a) :: removeAction m k

/-- In-place `action.status = st` on the binding of `k`
(the Rust code mutates the looked-up `&mut Action`). -/
def setActionStatus (m : List (ℕ × Action)) (k : ℕ) (st : ActionStatus) :
    List (ℕ × Action) :=
  m.map (fun kv => if kv.1 = k then (kv.1, { kv.2 with status := st }) else kv)

/-- Indexing of the account table (`self.accounts.get_unchecked_mut(cid)`),
`none` when the index is out of bounds.  Defined by structural recursion so
that it evaluates position by position. -/
def getAccount : List Account → ℕ → Option Account
  | [], _ => none
  | a :: _, 0 => some a
  | _ :: rest, n + 1 => getAccount rest n

/-- `Payments` from `src/payments.rs`: the account table and the action map. -/
structure Payments where
  accounts : List Account
  actions : List (ℕ × Action)

/-- `Payments::default()`: 65536 default accounts, empty action map. -/
def Payments.initial : Payments :=
  ⟨List.replicate 65536 Account.initial, []⟩

/-- `Payments::process_transaction` from `src/payments.rs`, lines 20–197.
`none` models undefined behaviour: the unchecked indexing of
`get_account_mut` going out of bounds, or the `unreachable!()` arm. -/
def processTransaction (p : Payments) (t : Transaction) : Option Payments :=
  match getAccount p.accounts t.cid with
  | none => none
  | some account =>
    if account.is_locked then
      some p
    else
      -- `account.has_activity = true` happens before the dispatch
      let account : Account := { account with has_activity := true }
      let p : Payments := { p with accounts := p.accounts.set t.cid account }
      match t.kind with
      | TransactionKind.Deposit amount =>
        let account : Account := { account with total := account.total + amount }
        some { p with
          accounts := p.accounts.set t.cid account,
          actions := insertAction p.actions t.tid
            ⟨t.cid, ActionKind.Deposit amount, ActionStatus.Fresh⟩ }
      | TransactionKind.Withdrawal amount =>
        if account.getAvailable ≥ amount then
          let account : Account :=
            { account with total := account.total - amount }
          some { p with
            accounts := p.accounts.set t.cid account,
            actions := insertAction p.actions t.tid
              ⟨t.cid, ActionKind.Withdrawal amount, ActionStatus.Fresh⟩ }
        else
          some p
      | TransactionKind.Dispute | TransactionKind.Resolve
      | TransactionKind.Chargeback =>
        match lookupAction p.actions t.tid with
        | none => some p
        | some action =>
          if action.cid ≠ t.cid then
            some p
          else
            match t.kind with
            | TransactionKind.Dispute =>
              if action.status ≠ ActionStatus.Fresh then
                some p
              else
                let p : Payments :=
                  { p with actions :=
                      setActionStatus p.actions t.tid ActionStatus.Disputed }
                match action.kind with
                | ActionKind.Withdrawal amount =>
                  let account : Account :=
                    { account with total := account.total + amount,
                                   held := account.held + amount }
                  some { p with accounts := p.accounts.set t.cid account }
                | ActionKind.Deposit amount =>
                  let account : Account :=
                    { account with held := account.held + amount }
                  some { p with accounts := p.accounts.set t.cid account }
            | TransactionKind.Resolve =>
              if action.status ≠ ActionStatus.Disputed then
                some p
              else
                let p : Payments :=
                  { p with actions :=
                      setActionStatus p.actions t.tid ActionStatus.Final }
                match action.kind with
                | ActionKind.Withdrawal amount =>
                  let account : Account :=
                    { account with held := account.held - amount }
                  some { p with accounts := p.accounts.set t.cid account }
                | ActionKind.Deposit amount =>
                  let account : Account :=
                    { account with total := account.total - amount,
                                   held := account.held - amount }
                  some { p with accounts := p.accounts.set t.cid account }
            | TransactionKind.Chargeback =>
              if action.status ≠ ActionStatus.Disputed then
                some p
              else
                let p : Payments :=
                  { p with actions :=
                      setActionStatus p.actions t.tid ActionStatus.Final }
                match action.kind with
                | ActionKind.Withdrawal amount =>
                  let account : Account :=
                    { account with held := account.held - amount,
                                   total := account.total - amount,
                                   is_locked := true }
                  some { p with accounts := p.accounts.set t.cid account }
                | ActionKind.Deposit amount =>
                  let account : Account :=
                    { account with held := account.held - amount,
                                   is_locked := true }
                  some { p with accounts := p.accounts.set t.cid account }
            | _ => none  -- the `unreachable!()` arm

/-- The driver loop of `main.rs`: apply the records in order. -/
def processAll : Payments → List Transaction → Option Payments
  | p, [] => some p
  | p, t :: ts =>
    match processTransaction p t with
    | none => none
    | some q => processAll q ts

/-- Observation: `total` of the account at client id `c`. -/
def totalAt (p : Payments) (c : ℕ) : ℚ :=
  ((getAccount p.accounts c).map Account.total).getD 0

/-- Observation: `held` of the account at client id `c`. -/
def heldAt (p : Payments) (c : ℕ) : ℚ :=
  ((getAccount p.accounts c).map Account.held).getD 0

/-- Observation: `is_locked` of the account at client id `c`. -/
def lockedAt (p : Payments) (c : ℕ) : Bool :=
  ((getAccount p.accounts c).map Account.is_locked).getD false

/-- Observation: status of the action recorded under transaction id `k`. -/
def statusAt (p : Payments) (k : ℕ) : Option ActionStatus :=
  (lookupAction p.actions k).map Action.status

/-- Exhaustive characterization of the outcomes of
`processTransaction p t = some p'`: one constructor per control path of
the Rust `match`. -/
inductive StepShape (p : Payments) (t : Transaction) : Payments → Prop where
  | locked (acct : Account)
      (hacct : getAccount p.accounts t.cid = some acct)
      (hl : acct.is_locked = true) : StepShape p t p
  | deposit (acct : Account) (am : ℚ)
      (hacct : getAccount p.accounts t.cid = some acct)
      (hl : acct.is_locked = false)
      (hk : t.kind = TransactionKind.Deposit am) :
      StepShape p t
        ⟨p.accounts.set t.cid
           { acct with has_activity := true, total := acct.total + am },
         insertAction p.actions t.tid
           ⟨t.cid, ActionKind.Deposit am, ActionStatus.Fresh⟩⟩
  | wdOk (acct : Account) (am : ℚ)
      (hacct : getAccount p.accounts t.cid = some acct)
      (hl : acct.is_locked = false)
      (hk : t.kind = TransactionKind.Withdrawal am)
      (hav : acct.total - acct.held ≥ am) :
      StepShape p t
        ⟨p.accounts.set t.cid
           { acct with has_activity := true, total := acct.total - am },
         insertAction p.actions t.tid
           ⟨t.cid, ActionKind.Withdrawal am, ActionStatus.Fresh⟩⟩
  | wdFail (acct : Account) (am : ℚ)
      (hacct : getAccount p.accounts t.cid = some acct)
      (hl : acct.is_locked = false)
      (hk : t.kind = TransactionKind.Withdrawal am)
      (hav : ¬ acct.total - acct.held ≥ am) :
      StepShape p t
        ⟨p.accounts.set t.cid { acct with has_activity := true }, p.actions⟩
  | noop (acct : Account)
      (hacct : getAccount p.accounts t.cid = some acct)
      (hl : acct.is_locked = false)
      (hcorr : t.kind = TransactionKind.Dispute ∨
        t.kind = TransactionKind.Resolve ∨
        t.kind = TransactionKind.Chargeback)
      (hno : lookupAction p.actions t.tid = none ∨
        ∃ a, lookupAction p.actions t.tid = some a ∧
          (a.cid ≠ t.cid ∨
           (t.kind = TransactionKind.Dispute ∧
             a.status ≠ ActionStatus.Fresh) ∨
           ((t.kind = TransactionKind.Resolve ∨
             t.kind = TransactionKind.Chargeback) ∧
             a.status ≠ ActionStatus.Disputed))) :
      StepShape p t
        ⟨p.accounts.set t.cid { acct with has_activity := true }, p.actions⟩
  | disputeDep (acct : Account) (a : Action) (am : ℚ)
      (hacct : getAccount p.accounts t.cid = some acct)
      (hl : acct.is_locked = false)
      (hk : t.kind = TransactionKind.Dispute)
      (hlook : lookupAction p.actions t.tid = some a)
      (hcid : a.cid = t.cid) (hst : a.status = ActionStatus.Fresh)
      (hak : a.kind = ActionKind.Deposit am) :
      StepShape p t
        ⟨p.accounts.set t.cid
           { acct with has_activity := true, held := acct.held + am },
         setActionStatus p.actions t.tid ActionStatus.Disputed⟩
  | disputeWd (acct : Account) (a : Action) (am : ℚ)
      (hacct : getAccount p.accounts t.cid = some acct)
      (hl : acct.is_locked = false)
      (hk : t.kind = TransactionKind.Dispute)
      (hlook : lookupAction p.actions t.tid = some a)
      (hcid : a.cid = t.cid) (hst : a.status = ActionStatus.Fresh)
      (hak : a.kind = ActionKind.Withdrawal am) :
      StepShape p t
        ⟨p.accounts.set t.cid
           { acct with has_activity := true, total := acct.total + am,
                       held := acct.held + am },
         setActionStatus p.actions t.tid ActionStatus.Disputed⟩
  | resolveDep (acct : Account) (a : Action) (am : ℚ)
      (hacct : getAccount p.accounts t.cid = some acct)
      (hl : acct.is_locked = false)
      (hk : t.kind = TransactionKind.Resolve)
      (hlook : lookupAction p.actions t.tid = some a)
      (hcid : a.cid = t.cid) (hst : a.status = ActionStatus.Disputed)
      (hak : a.kind = ActionKind.Deposit am) :
      StepShape p t
        ⟨p.accounts.set t.cid
           { acct with has_activity := true, total := acct.total - am,
                       held := acct.held - am },
         setActionStatus p.actions t.tid ActionStatus.Final⟩
  | resolveWd (acct : Account) (a : Action) (am : ℚ)
      (hacct : getAccount p.accounts t.cid = some acct)
      (hl : acct.is_locked = false)
      (hk : t.kind = TransactionKind.Resolve)
      (hlook : lookupAction p.actions t.tid = some a)
      (hcid : a.cid = t.cid) (hst : a.status = ActionStatus.Disputed)
      (hak : a.kind = ActionKind.Withdrawal am) :
      StepShape p t
        ⟨p.accounts.set t.cid
           { acct with has_activity := true, held := acct.held - am },
         setActionStatus p.actions t.tid ActionStatus.Final⟩
  | cbDep (acct : Account) (a : Action) (am : ℚ)
      (hacct : getAccount p.accounts t.cid = some acct)
      (hl : acct.is_locked = false)
      (hk : t.kind = TransactionKind.Chargeback)
      (hlook : lookupAction p.actions t.tid = some a)
      (hcid : a.cid = t.cid) (hst : a.status = ActionStatus.Disputed)
      (hak : a.kind = ActionKind.Deposit am) :
      StepShape p t
        ⟨p.accounts.set t.cid
           { acct with has_activity := true, held := acct.held - am,
                       is_locked := true },
         setActionStatus p.actions t.tid ActionStatus.Final⟩
  | cbWd (acct : Account) (a : Action) (am : ℚ)
      (hacct : getAccount p.accounts t.cid = some acct)
      (hl : acct.is_locked = false)
      (hk : t.kind = TransactionKind.Chargeback)
      (hlook : lookupAction p.actions t.tid = some a)
      (hcid : a.cid = t.cid) (hst : a.status = ActionStatus.Disputed)
      (hak : a.kind = ActionKind.Withdrawal am) :
      StepShape p t
        ⟨p.accounts.set t.cid
           { acct with has_activity := true, held := acct.held - am,
                       total := acct.total - am, is_locked := true },
         setActionStatus p.actions t.tid ActionStatus.Final⟩

/-- The keys (transaction ids) bound in the action map. -/
def actionKeys (m : List (ℕ × Action)) : List ℕ := m.map Prod.fst

/-- Sum of the amounts of the currently Disputed actions owned by `c`. -/
def disputedSum (m : List (ℕ × Action)) (c : ℕ) : ℚ :=
  match m with
  | [] => 0
  | kv :: rest =>
    (if kv.2.cid = c ∧ kv.2.status = ActionStatus.Disputed
     then actionAmount kv.2.kind else 0) + disputedSum rest c

/-- Per-record well-formedness (§3: 16-bit client id, positive amount
exactly for deposits and withdrawals). -/
def WellFormed (t : Transaction) : Prop :=
  t.cid < 65536 ∧
  ∀ am, (t.kind = TransactionKind.Deposit am ∨
    t.kind = TransactionKind.Withdrawal am) → 0 < am

/-- The transaction id consumed by a deposit/withdrawal record, `none`
for dispute/resolve/chargeback. -/
def depwdTid (t : Transaction) : Option ℕ :=
  match t.kind with
  | TransactionKind.Deposit _ => some t.tid
  | TransactionKind.Withdrawal _ => some t.tid
  | _ => none

/-- The C10 invariant: distinct action keys, positive stored amounts, and
`held` equal to the disputed sum for every client. -/
def Inv (p : Payments) : Prop :=
  (actionKeys p.actions).Nodup ∧
  (∀ kv ∈ p.actions, 0 < actionAmount kv.2.kind) ∧
  (∀ c, heldAt p c = disputedSum p.actions c)

/-- Rounding of a rational to an integer under `MidpointNearestEven`
(banker's rounding), the documented default strategy of the
`rust_decimal` crate's `round_dp` used in `src/output.rs`. -/
def roundHalfEven (q : ℚ) : ℤ :=
  if q - Int.floor q < 1/2 then Int.floor q
  else if 1/2 < q - Int.floor q then Int.floor q + 1
  else if Even (Int.floor q) then Int.floor q else Int.floor q + 1

/-- `serialize_decimal_4dp` from `src/output.rs`
(`format!("{:.4}", value.round_dp(4))`): the printed string always has
exactly 4 fractional digits, so it is represented here by its value in
units of 10⁻⁴. -/
def serialize_decimal_4dp (q : ℚ) : ℤ := roundHalfEven (q * 10000)

/-- Modelled from the spec: rounding "half-up … rounds away from zero",
the strategy the spec asserts for the serializer; kept only to compare
with the implementation's `roundHalfEven`. -/
def roundHalfUp (q : ℚ) : ℤ :=
  if q - Int.floor q < 1/2 then Int.floor q
  else if 1/2 < q - Int.floor q then Int.floor q + 1
  else if 0 ≤ q then Int.floor q + 1 else Int.floor q

/-- `OutputRow` from `src/output.rs`; the three decimal fields hold the
serialized 4-fractional-digit values in units of 10⁻⁴. -/
structure OutputRow where
  client : ℕ
  available : ℤ
  held : ℤ
  total : ℤ
  locked : Bool

/-- Row construction from `main.rs` (available = total − held, each
decimal through `serialize_decimal_4dp`). -/
def toOutputRow (c : ℕ) (acct : Account) : OutputRow :=
  ⟨c, serialize_decimal_4dp (acct.total - acct.held),
   serialize_decimal_4dp acct.held, serialize_decimal_4dp acct.total,
   acct.is_locked⟩

/-- The serialized value `n` (in units of 10⁻⁴) is the nearest
4-fractional-digit value to `q`, with ties going to the even digit. -/
def rounded4dpHalfEven (q : ℚ) (n : ℤ) : Prop :=
  |(n : ℚ) - q * 10000| ≤ 1/2 ∧ (|(n : ℚ) - q * 10000| = 1/2 → Even n)

theorem step_locked {p : Payments} {t : Transaction} {acct : Account}
    (hacct : getAccount p.accounts t.cid = some acct) (hl : acct.is_locked = true) :
    processTransaction p t = some p := by
  simp [processTransaction, hacct, hl]

theorem step_deposit {p : Payments} {k c : ℕ} {am : ℚ} {acct : Account}
    (hacct : getAccount p.accounts c = some acct) (hl : acct.is_locked = false) :
    processTransaction p ⟨k, c, TransactionKind.Deposit am⟩ =
      some ⟨p.accounts.set c
              { acct with has_activity := true, total := acct.total + am },
            insertAction p.actions k
              ⟨c, ActionKind.Deposit am, ActionStatus.Fresh⟩⟩ := by
  simp [processTransaction, hacct, hl, List.set_set]

theorem step_withdrawal_ok {p : Payments} {k c : ℕ} {am : ℚ} {acct : Account}
    (hacct : getAccount p.accounts c = some acct) (hl : acct.is_locked = false)
    (hav : acct.total - acct.held ≥ am) :
    processTransaction p ⟨k, c, TransactionKind.Withdrawal am⟩ =
      some ⟨p.accounts.set c
              { acct with has_activity := true, total := acct.total - am },
            insertAction p.actions k
              ⟨c, ActionKind.Withdrawal am, ActionStatus.Fresh⟩⟩ := by
  simp [processTransaction, hacct, hl, Account.getAvailable, hav, List.set_set]

theorem step_withdrawal_fail {p : Payments} {k c : ℕ} {am : ℚ} {acct : Account}
    (hacct : getAccount p.accounts c = some acct) (hl : acct.is_locked = false)
    (hav : ¬ acct.total - acct.held ≥ am) :
    processTransaction p ⟨k, c, TransactionKind.Withdrawal am⟩ =
      some { p with accounts :=
               p.accounts.set c { acct with has_activity := true } } := by
  simp [processTransaction, hacct, hl, Account.getAvailable, hav]

theorem step_correction_noop {p : Payments} {t : Transaction} {acct : Account}
    (ht : t.kind = TransactionKind.Dispute ∨ t.kind = TransactionKind.Resolve ∨
          t.kind = TransactionKind.Chargeback)
    (hacct : getAccount p.accounts t.cid = some acct) (hl : acct.is_locked = false)
    (hno : lookupAction p.actions t.tid = none ∨
      ∃ a, lookupAction p.actions t.tid = some a ∧
        (a.cid ≠ t.cid ∨
         (t.kind = TransactionKind.Dispute ∧ a.status ≠ ActionStatus.Fresh) ∨
         ((t.kind = TransactionKind.Resolve ∨
           t.kind = TransactionKind.Chargeback) ∧
          a.status ≠ ActionStatus.Disputed))) :
    processTransaction p t =
      some { p with accounts :=
               p.accounts.set t.cid { acct with has_activity := true } } := by
  obtain ⟨k, c, kind⟩ := t
  rcases hno with hlook | ⟨a, hlook, hbad⟩
  · rcases ht with h | h | h <;> subst h <;> simp [processTransaction, hacct, hl, hlook]
  · rcases ht with h | h | h <;> subst h <;>
      rcases hbad with hc | ⟨_, hst⟩ | ⟨_, hst⟩ <;>
      simp_all [processTransaction, hacct, hl, hlook]

theorem step_dispute_deposit {p : Payments} {k c : ℕ} {am : ℚ}
    {acct : Account} {a : Action}
    (hacct : getAccount p.accounts c = some acct) (hl : acct.is_locked = false)
    (hlook : lookupAction p.actions k = some a) (hcid : a.cid = c)
    (hst : a.status = ActionStatus.Fresh)
    (hkind : a.kind = ActionKind.Deposit am) :
    processTransaction p ⟨k, c, TransactionKind.Dispute⟩ =
      some ⟨p.accounts.set c
              { acct with has_activity := true, held := acct.held + am },
            setActionStatus p.actions k ActionStatus.Disputed⟩ := by
  simp [processTransaction, hacct, hl, hlook, hcid, hst, hkind, List.set_set]

theorem step_dispute_withdrawal {p : Payments} {k c : ℕ} {am : ℚ}
    {acct : Account} {a : Action}
    (hacct : getAccount p.accounts c = some acct) (hl : acct.is_locked = false)
    (hlook : lookupAction p.actions k = some a) (hcid : a.cid = c)
    (hst : a.status = ActionStatus.Fresh)
    (hkind : a.kind = ActionKind.Withdrawal am) :
    processTransaction p ⟨k, c, TransactionKind.Dispute⟩ =
      some ⟨p.accounts.set c
              { acct with has_activity := true, total := acct.total + am,
                          held := acct.held + am },
            setActionStatus p.actions k ActionStatus.Disputed⟩ := by
  simp [processTransaction, hacct, hl, hlook, hcid, hst, hkind, List.set_set]

theorem step_resolve_deposit {p : Payments} {k c : ℕ} {am : ℚ}
    {acct : Account} {a : Action}
    (hacct : getAccount p.accounts c = some acct) (hl : acct.is_locked = false)
    (hlook : lookupAction p.actions k = some a) (hcid : a.cid = c)
    (hst : a.status = ActionStatus.Disputed)
    (hkind : a.kind = ActionKind.Deposit am) :
    processTransaction p ⟨k, c, TransactionKind.Resolve⟩ =
      some ⟨p.accounts.set c
              { acct with has_activity := true, total := acct.total - am,
                          held := acct.held - am },
            setActionStatus p.actions k ActionStatus.Final⟩ := by
  simp [processTransaction, hacct, hl, hlook, hcid, hst, hkind, List.set_set]

theorem step_resolve_withdrawal {p : Payments} {k c : ℕ} {am : ℚ}
    {acct : Account} {a : Action}
    (hacct : getAccount p.accounts c = some acct) (hl : acct.is_locked = false)
    (hlook : lookupAction p.actions k = some a) (hcid : a.cid = c)
    (hst : a.status = ActionStatus.Disputed)
    (hkind : a.kind = ActionKind.Withdrawal am) :
    processTransaction p ⟨k, c, TransactionKind.Resolve⟩ =
      some ⟨p.accounts.set c
              { acct with has_activity := true, held := acct.held - am },
            setActionStatus p.actions k ActionStatus.Final⟩ := by
  simp [processTransaction, hacct, hl, hlook, hcid, hst, hkind, List.set_set]

theorem step_chargeback_deposit {p : Payments} {k c : ℕ} {am : ℚ}
    {acct : Account} {a : Action}
    (hacct : getAccount p.accounts c = some acct) (hl : acct.is_locked = false)
    (hlook : lookupAction p.actions k = some a) (hcid : a.cid = c)
    (hst : a.status = ActionStatus.Disputed)
    (hkind : a.kind = ActionKind.Deposit am) :
    processTransaction p ⟨k, c, TransactionKind.Chargeback⟩ =
      some ⟨p.accounts.set c
              { acct with has_activity := true, held := acct.held - am,
                          is_locked := true },
            setActionStatus p.actions k ActionStatus.Final⟩ := by
  simp [processTransaction, hacct, hl, hlook, hcid, hst, hkind, List.set_set]

theorem step_chargeback_withdrawal {p : Payments} {k c : ℕ} {am : ℚ}
    {acct : Account} {a : Action}
    (hacct : getAccount p.accounts c = some acct) (hl : acct.is_locked = false)
    (hlook : lookupAction p.actions k = some a) (hcid : a.cid = c)
    (hst : a.status = ActionStatus.Disputed)
    (hkind : a.kind = ActionKind.Withdrawal am) :
    processTransaction p ⟨k, c, TransactionKind.Chargeback⟩ =
      some ⟨p.accounts.set c
              { acct with has_activity := true, total := acct.total - am,
                          held := acct.held - am, is_locked := true },
            setActionStatus p.actions k ActionStatus.Final⟩ := by
  simp [processTransaction, hacct, hl, hlook, hcid, hst, hkind, List.set_set]

theorem lookupAction_removeAction (m : List (ℕ × Action)) (i k : ℕ) :
    lookupAction (removeAction m i) k =
      if i = k then none else lookupAction m k := by
  induction m with
  | nil => simp [removeAction, lookupAction]
  | cons kv rest ih =>
    by_cases h1 : kv.1 = i
    · by_cases h2 : i = k <;> simp_all [removeAction, lookupAction]
    · have h1' : i ≠ kv.1 := fun he => h1 he.symm
      by_cases h2 : kv.1 = k
      · subst h2; simp_all [removeAction, lookupAction]
      · simp_all [removeAction, lookupAction]

theorem lookupAction_insertAction (m : List (ℕ × Action)) (i k : ℕ)
    (a : Action) :
    lookupAction (insertAction m i a) k =
      if i = k then some a else lookupAction m k := by
  by_cases h : i = k <;>
    simp [insertAction, lookupAction, lookupAction_removeAction, h]

theorem lookupAction_setActionStatus (m : List (ℕ × Action)) (i k : ℕ)
    (st : ActionStatus) :
    lookupAction (setActionStatus m i st) k =
      if i = k then (lookupAction m k).map (fun a => { a with status := st })
      else lookupAction m k := by
  induction m with
  | nil => simp [setActionStatus, lookupAction]
  | cons kv rest ih =>
    by_cases h1 : kv.1 = i
    · by_cases h2 : i = k <;> simp_all [setActionStatus, lookupAction]
    · have h1' : i ≠ kv.1 := fun he => h1 he.symm
      by_cases h2 : kv.1 = k
      · subst h2; simp_all [setActionStatus, lookupAction]
      · simp_all [setActionStatus, lookupAction]

theorem getAccount_eq_getElem? (l : List Account) (c : ℕ) :
    getAccount l c = l[c]? := by
  induction l generalizing c with
  | nil => simp [getAccount]
  | cons a rest ih =>
    cases c with
    | zero => simp [getAccount]
    | succ n => simp [getAccount, ih]

theorem getAccount_some_lt {l : List Account} {c : ℕ} {a : Account}
    (h : getAccount l c = some a) : c < l.length := by
  rw [getAccount_eq_getElem?] at h
  by_contra hc
  rw [List.getElem?_eq_none (by omega)] at h
  exact Option.noConfusion h

theorem getAccount_set_self {l : List Account} {c : ℕ} (a : Account)
    (h : c < l.length) : getAccount (l.set c a) c = some a := by
  rw [getAccount_eq_getElem?]
  exact List.getElem?_set_eq_of_lt _ h

theorem getAccount_set_ne {l : List Account} {i c : ℕ} (a : Account)
    (h : i ≠ c) : getAccount (l.set i a) c = getAccount l c := by
  rw [getAccount_eq_getElem?, getAccount_eq_getElem?]
  exact List.getElem?_set_ne h

/-- C2: for every account state and every action of kind Withdrawal with
status Disputed, a successful resolve decrements the owning account's
`held` by the action's amount, leaves `total` unchanged (the withdrawal
stays reversed), and sets the action's status to Final. -/
theorem payments_C2_resolve_disputed_withdrawal {p : Payments} {k c : ℕ}
    {am : ℚ} {acct : Account} {a : Action}
    (hacct : getAccount p.accounts c = some acct) (hl : acct.is_locked = false)
    (hlook : lookupAction p.actions k = some a) (hcid : a.cid = c)
    (hkind : a.kind = ActionKind.Withdrawal am)
    (hst : a.status = ActionStatus.Disputed) :
    ∃ p', processTransaction p ⟨k, c, TransactionKind.Resolve⟩ = some p' ∧
      (∃ acct', getAccount p'.accounts c = some acct' ∧
        acct'.held = acct.held - am ∧ acct'.total = acct.total) ∧
      lookupAction p'.actions k =
        some ⟨a.cid, a.kind, ActionStatus.Final⟩ := by
  have hlt := getAccount_some_lt hacct
  refine ⟨_, step_resolve_withdrawal hacct hl hlook hcid hst hkind, ?_, ?_⟩
  · exact ⟨_, getAccount_set_self _ hlt, rfl, rfl⟩
  · simp [lookupAction_setActionStatus, hlook]

/-- Witness for C2 at a concrete input. -/
theorem payments_C2_witness :
    getAccount (Payments.mk [⟨10, 3, false, true⟩]
        [(5, ⟨0, ActionKind.Withdrawal 3, ActionStatus.Disputed⟩)]).accounts 0
      = some ⟨10, 3, false, true⟩ ∧
    (∃ p', processTransaction
        (Payments.mk [⟨10, 3, false, true⟩]
          [(5, ⟨0, ActionKind.Withdrawal 3, ActionStatus.Disputed⟩)])
        ⟨5, 0, TransactionKind.Resolve⟩ = some p' ∧
      (∃ acct', getAccount p'.accounts 0 = some acct' ∧
        acct'.held = (3 : ℚ) - 3 ∧ acct'.total = (10 : ℚ)) ∧
      lookupAction p'.actions 5 =
        some ⟨0, ActionKind.Withdrawal 3, ActionStatus.Final⟩) :=
  ⟨rfl, @payments_C2_resolve_disputed_withdrawal
    (Payments.mk [⟨10, 3, false, true⟩]
      [(5, ⟨0, ActionKind.Withdrawal 3, ActionStatus.Disputed⟩)])
    5 0 3 ⟨10, 3, false, true⟩ ⟨0, ActionKind.Withdrawal 3, ActionStatus.Disputed⟩
    rfl rfl rfl rfl rfl rfl⟩

/-- C5: on an unlocked account a withdrawal succeeds exactly when
`available = total − held` (computed before the debit) is at least the
amount; success debits `total` and records a Fresh Withdrawal action
under the transaction id; failure leaves `total`, `held` and the action
map unchanged, setting only `has_activity`. -/
theorem payments_C5_withdrawal_available {p : Payments} {k c : ℕ} {am : ℚ}
    {acct : Account}
    (hacct : getAccount p.accounts c = some acct) (hl : acct.is_locked = false)
    (hpos : 0 < am) :
    (acct.total - acct.held ≥ am ↔
      ∃ p', processTransaction p ⟨k, c, TransactionKind.Withdrawal am⟩ =
          some p' ∧
        (∃ acct', getAccount p'.accounts c = some acct' ∧
          acct'.total = acct.total - am ∧ acct'.held = acct.held) ∧
        lookupAction p'.actions k =
          some ⟨c, ActionKind.Withdrawal am, ActionStatus.Fresh⟩) ∧
    (¬ acct.total - acct.held ≥ am →
      processTransaction p ⟨k, c, TransactionKind.Withdrawal am⟩ =
        some { p with accounts :=
                 p.accounts.set c { acct with has_activity := true } }) := by
  have hlt := getAccount_some_lt hacct
  constructor
  · constructor
    · intro hav
      refine ⟨_, step_withdrawal_ok hacct hl hav, ?_, ?_⟩
      · exact ⟨_, getAccount_set_self _ hlt, rfl, rfl⟩
      · simp [lookupAction_insertAction]
    · rintro ⟨p', hstep, ⟨acct', hacct', htot, _⟩, _⟩
      by_contra hav
      rw [step_withdrawal_fail hacct hl hav] at hstep
      injection hstep with h
      subst h
      rw [getAccount_set_self _ hlt] at hacct'
      injection hacct' with h2
      subst h2
      have h3 : acct.total = acct.total - am := htot
      linarith
  · intro hav
    exact step_withdrawal_fail hacct hl hav

/-- Witness for C5 at a concrete input. -/
theorem payments_C5_witness :
    getAccount (Payments.mk [⟨10, 0, false, true⟩] []).accounts 0 =
      some ⟨10, 0, false, true⟩ ∧ (0 : ℚ) < 4 ∧
    (((10 : ℚ) - 0 ≥ 4 ↔
      ∃ p', processTransaction (Payments.mk [⟨10, 0, false, true⟩] [])
          ⟨1, 0, TransactionKind.Withdrawal 4⟩ = some p' ∧
        (∃ acct', getAccount p'.accounts 0 = some acct' ∧
          acct'.total = (10 : ℚ) - 4 ∧ acct'.held = (0 : ℚ)) ∧
        lookupAction p'.actions 1 =
          some ⟨0, ActionKind.Withdrawal 4, ActionStatus.Fresh⟩) ∧
    (¬ (10 : ℚ) - 0 ≥ 4 →
      processTransaction (Payments.mk [⟨10, 0, false, true⟩] [])
          ⟨1, 0, TransactionKind.Withdrawal 4⟩ =
        some (Payments.mk [⟨10, 0, false, true⟩] []))) :=
  ⟨rfl, by norm_num,
    @payments_C5_withdrawal_available (Payments.mk [⟨10, 0, false, true⟩] [])
      1 0 4 ⟨10, 0, false, true⟩ rfl rfl (by norm_num)⟩

/-- C7: on an unlocked account, a deposit followed by a dispute of that
deposit and a resolve of that dispute (same client, same transaction id,
all three succeeding) restores `total` and `held` to their pre-deposit
values exactly. -/
theorem payments_C7_deposit_dispute_resolve_roundtrip {p : Payments}
    {k c : ℕ} {am : ℚ} {acct : Account}
    (hacct : getAccount p.accounts c = some acct) (hl : acct.is_locked = false)
    (hpos : 0 < am) :
    ∃ p', processAll p [⟨k, c, TransactionKind.Deposit am⟩,
        ⟨k, c, TransactionKind.Dispute⟩,
        ⟨k, c, TransactionKind.Resolve⟩] = some p' ∧
      ∃ acct', getAccount p'.accounts c = some acct' ∧
        acct'.total = acct.total ∧ acct'.held = acct.held := by
  have hlt := getAccount_some_lt hacct
  have h1 : processTransaction p ⟨k, c, TransactionKind.Deposit am⟩ =
      some ⟨p.accounts.set c
              { acct with has_activity := true, total := acct.total + am },
            insertAction p.actions k
              ⟨c, ActionKind.Deposit am, ActionStatus.Fresh⟩⟩ :=
    step_deposit hacct hl
  have hlk1 : lookupAction
      (insertAction p.actions k
        ⟨c, ActionKind.Deposit am, ActionStatus.Fresh⟩) k =
      some ⟨c, ActionKind.Deposit am, ActionStatus.Fresh⟩ := by
    simp [lookupAction_insertAction]
  have hlk2 : lookupAction
      (setActionStatus
        (insertAction p.actions k
          ⟨c, ActionKind.Deposit am, ActionStatus.Fresh⟩)
        k ActionStatus.Disputed) k =
      some ⟨c, ActionKind.Deposit am, ActionStatus.Disputed⟩ := by
    simp [lookupAction_setActionStatus, lookupAction_insertAction]
  have h2 : processTransaction
      ⟨p.accounts.set c
         { acct with has_activity := true, total := acct.total + am },
       insertAction p.actions k
         ⟨c, ActionKind.Deposit am, ActionStatus.Fresh⟩⟩
      ⟨k, c, TransactionKind.Dispute⟩ =
      some ⟨(p.accounts.set c
               { acct with has_activity := true,
                           total := acct.total + am }).set c
              { acct with has_activity := true, total := acct.total + am,
                          held := acct.held + am },
            setActionStatus
              (insertAction p.actions k
                ⟨c, ActionKind.Deposit am, ActionStatus.Fresh⟩)
              k ActionStatus.Disputed⟩ := by
    exact @step_dispute_deposit
      ⟨p.accounts.set c
         { acct with has_activity := true, total := acct.total + am },
       insertAction p.actions k
         ⟨c, ActionKind.Deposit am, ActionStatus.Fresh⟩⟩
      k c am
      { acct with has_activity := true, total := acct.total + am }
      ⟨c, ActionKind.Deposit am, ActionStatus.Fresh⟩
      (getAccount_set_self _ hlt) hl hlk1 rfl rfl rfl
  have h3 : processTransaction
      ⟨(p.accounts.set c
          { acct with has_activity := true, total := acct.total + am }).set c
         { acct with has_activity := true, total := acct.total + am,
                     held := acct.held + am },
       setActionStatus
         (insertAction p.actions k
           ⟨c, ActionKind.Deposit am, ActionStatus.Fresh⟩)
         k ActionStatus.Disputed⟩
      ⟨k, c, TransactionKind.Resolve⟩ =
      some ⟨((p.accounts.set c
                { acct with has_activity := true,
                            total := acct.total + am }).set c
               { acct with has_activity := true, total := acct.total + am,
                           held := acct.held + am }).set c
              { acct with has_activity := true,
                          total := acct.total + am - am,
                          held := acct.held + am - am },
            setActionStatus
              (setActionStatus
                (insertAction p.actions k
                  ⟨c, ActionKind.Deposit am, ActionStatus.Fresh⟩)
                k ActionStatus.Disputed)
              k ActionStatus.Final⟩ := by
    exact @step_resolve_deposit
      ⟨(p.accounts.set c
          { acct with has_activity := true, total := acct.total + am }).set c
         { acct with has_activity := true, total := acct.total + am,
                     held := acct.held + am },
       setActionStatus
         (insertAction p.actions k
           ⟨c, ActionKind.Deposit am, ActionStatus.Fresh⟩)
         k ActionStatus.Disputed⟩
      k c am
      { acct with has_activity := true, total := acct.total + am,
                  held := acct.held + am }
      ⟨c, ActionKind.Deposit am, ActionStatus.Disputed⟩
      (getAccount_set_self _ (by simpa using hlt)) hl hlk2 rfl rfl rfl
  simp only [processAll, h1, h2, h3]
  refine ⟨_, rfl, _,
    getAccount_set_self _ (by simpa using hlt), ?_, ?_⟩
  · show acct.total + am - am = acct.total
    ring
  · show acct.held + am - am = acct.held
    ring

/-- Witness for C7 at a concrete input. -/
theorem payments_C7_witness :
    getAccount (Payments.mk [⟨2, 1, false, true⟩] []).accounts 0 =
      some ⟨2, 1, false, true⟩ ∧ (0 : ℚ) < 6 ∧
    (∃ p', processAll (Payments.mk [⟨2, 1, false, true⟩] [])
        [⟨9, 0, TransactionKind.Deposit 6⟩,
         ⟨9, 0, TransactionKind.Dispute⟩,
         ⟨9, 0, TransactionKind.Resolve⟩] = some p' ∧
      ∃ acct', getAccount p'.accounts 0 = some acct' ∧
        acct'.total = (2 : ℚ) ∧ acct'.held = (1 : ℚ)) :=
  ⟨rfl, by norm_num,
    @payments_C7_deposit_dispute_resolve_roundtrip
      (Payments.mk [⟨2, 1, false, true⟩] []) 9 0 6 ⟨2, 1, false, true⟩
      rfl rfl (by norm_num)⟩

theorem getAccount_initial {c : ℕ} (h : c < 65536) :
    getAccount Payments.initial.accounts c = some Account.initial := by
  rw [getAccount_eq_getElem?]
  exact List.getElem?_replicate_of_lt h

/-- C3: a successful chargeback of a Disputed Deposit action decrements the
owning account's `held` by the amount, leaves `total` unchanged, locks the
account and finalises the action; in particular Scenario B:
deposit(0,0,10), dispute(0,0), chargeback(0,0) on a fresh ledger gives
account 0 `{total = 10, held = 0, locked = true}`. -/
theorem payments_C3_chargeback_deposit :
    (∀ (p : Payments) (k c : ℕ) (am : ℚ) (acct : Account) (a : Action),
      getAccount p.accounts c = some acct → acct.is_locked = false →
      lookupAction p.actions k = some a → a.cid = c →
      a.kind = ActionKind.Deposit am → a.status = ActionStatus.Disputed →
      ∃ p', processTransaction p ⟨k, c, TransactionKind.Chargeback⟩ =
          some p' ∧
        (∃ acct', getAccount p'.accounts c = some acct' ∧
          acct'.held = acct.held - am ∧ acct'.total = acct.total ∧
          acct'.is_locked = true) ∧
        lookupAction p'.actions k =
          some ⟨a.cid, a.kind, ActionStatus.Final⟩) ∧
    (∃ p', processAll Payments.initial
        [⟨0, 0, TransactionKind.Deposit 10⟩,
         ⟨0, 0, TransactionKind.Dispute⟩,
         ⟨0, 0, TransactionKind.Chargeback⟩] = some p' ∧
      totalAt p' 0 = 10 ∧ heldAt p' 0 = 0 ∧ lockedAt p' 0 = true) := by
  constructor
  · intro p k c am acct a hacct hl hlook hcid hkind hst
    have hlt := getAccount_some_lt hacct
    refine ⟨_, step_chargeback_deposit hacct hl hlook hcid hst hkind, ?_, ?_⟩
    · exact ⟨_, getAccount_set_self _ hlt, rfl, rfl, rfl⟩
    · simp [lookupAction_setActionStatus, hlook]
  · have hlen : (0 : ℕ) < Payments.initial.accounts.length := by
      show (0 : ℕ) < (List.replicate 65536 Account.initial).length
      rw [List.length_replicate]
      norm_num
    have e0 := getAccount_initial (c := 0) (by norm_num)
    have h1 : processTransaction Payments.initial
        ⟨0, 0, TransactionKind.Deposit 10⟩ =
        some ⟨Payments.initial.accounts.set 0
                { Account.initial with has_activity := true,
                                       total := Account.initial.total + 10 },
              insertAction Payments.initial.actions 0
                ⟨0, ActionKind.Deposit 10, ActionStatus.Fresh⟩⟩ :=
      step_deposit e0 rfl
    have h2 : processTransaction
        ⟨Payments.initial.accounts.set 0
           { Account.initial with has_activity := true,
                                  total := Account.initial.total + 10 },
         insertAction Payments.initial.actions 0
           ⟨0, ActionKind.Deposit 10, ActionStatus.Fresh⟩⟩
        ⟨0, 0, TransactionKind.Dispute⟩ =
        some ⟨(Payments.initial.accounts.set 0
                 { Account.initial with has_activity := true,
                                        total := Account.initial.total + 10 }).set 0
                { Account.initial with has_activity := true,
                                       total := Account.initial.total + 10,
                                       held := Account.initial.held + 10 },
              setActionStatus
                (insertAction Payments.initial.actions 0
                  ⟨0, ActionKind.Deposit 10, ActionStatus.Fresh⟩)
                0 ActionStatus.Disputed⟩ :=
      @step_dispute_deposit
        ⟨Payments.initial.accounts.set 0
           { Account.initial with has_activity := true,
                                  total := Account.initial.total + 10 },
         insertAction Payments.initial.actions 0
           ⟨0, ActionKind.Deposit 10, ActionStatus.Fresh⟩⟩
        0 0 10
        { Account.initial with has_activity := true,
                               total := Account.initial.total + 10 }
        ⟨0, ActionKind.Deposit 10, ActionStatus.Fresh⟩
        (getAccount_set_self _ hlen) rfl
        (by simp [lookupAction_insertAction]) rfl rfl rfl
    have h3 : processTransaction
        ⟨(Payments.initial.accounts.set 0
            { Account.initial with has_activity := true,
                                   total := Account.initial.total + 10 }).set 0
           { Account.initial with has_activity := true,
                                  total := Account.initial.total + 10,
                                  held := Account.initial.held + 10 },
         setActionStatus
           (insertAction Payments.initial.actions 0
             ⟨0, ActionKind.Deposit 10, ActionStatus.Fresh⟩)
           0 ActionStatus.Disputed⟩
        ⟨0, 0, TransactionKind.Chargeback⟩ =
        some ⟨((Payments.initial.accounts.set 0
                  { Account.initial with has_activity := true,
                                         total := Account.initial.total + 10 }).set 0
                 { Account.initial with has_activity := true,
                                        total := Account.initial.total + 10,
                                        held := Account.initial.held + 10 }).set 0
                { Account.initial with has_activity := true,
                                       total := Account.initial.total + 10,
                                       held := Account.initial.held + 10 - 10,
                                       is_locked := true },
              setActionStatus
                (setActionStatus
                  (insertAction Payments.initial.actions 0
                    ⟨0, ActionKind.Deposit 10, ActionStatus.Fresh⟩)
                  0 ActionStatus.Disputed)
                0 ActionStatus.Final⟩ :=
      @step_chargeback_deposit
        ⟨(Payments.initial.accounts.set 0
            { Account.initial with has_activity := true,
                                   total := Account.initial.total + 10 }).set 0
           { Account.initial with has_activity := true,
                                  total := Account.initial.total + 10,
                                  held := Account.initial.held + 10 },
         setActionStatus
           (insertAction Payments.initial.actions 0
             ⟨0, ActionKind.Deposit 10, ActionStatus.Fresh⟩)
           0 ActionStatus.Disputed⟩
        0 0 10
        { Account.initial with has_activity := true,
                               total := Account.initial.total + 10,
                               held := Account.initial.held + 10 }
        ⟨0, ActionKind.Deposit 10, ActionStatus.Disputed⟩
        (getAccount_set_self _ (by simpa using hlen)) rfl
        (by simp [lookupAction_setActionStatus, lookupAction_insertAction])
        rfl rfl rfl
    simp only [processAll, h1, h2, h3]
    refine ⟨_, rfl, ?_, ?_, ?_⟩
    · rw [totalAt, getAccount_set_self _ (by simpa using hlen)]
      show Account.initial.total + 10 = 10
      norm_num [Account.initial]
    · rw [heldAt, getAccount_set_self _ (by simpa using hlen)]
      show Account.initial.held + 10 - 10 = 0
      norm_num [Account.initial]
    · rw [lockedAt, getAccount_set_self _ (by simpa using hlen)]
      rfl

/-- Witness for the universally quantified part of C3, applied at a
concrete disputed deposit. -/
theorem payments_C3_witness :
    getAccount (Payments.mk [⟨7, 4, false, true⟩]
        [(2, ⟨0, ActionKind.Deposit 4, ActionStatus.Disputed⟩)]).accounts 0 =
      some ⟨7, 4, false, true⟩ ∧
    (∃ p', processTransaction
        (Payments.mk [⟨7, 4, false, true⟩]
          [(2, ⟨0, ActionKind.Deposit 4, ActionStatus.Disputed⟩)])
        ⟨2, 0, TransactionKind.Chargeback⟩ = some p' ∧
      (∃ acct', getAccount p'.accounts 0 = some acct' ∧
        acct'.held = (4 : ℚ) - 4 ∧ acct'.total = (7 : ℚ) ∧
        acct'.is_locked = true) ∧
      lookupAction p'.actions 2 =
        some ⟨0, ActionKind.Deposit 4, ActionStatus.Final⟩) :=
  ⟨rfl, payments_C3_chargeback_deposit.1
    (Payments.mk [⟨7, 4, false, true⟩]
      [(2, ⟨0, ActionKind.Deposit 4, ActionStatus.Disputed⟩)])
    2 0 4 ⟨7, 4, false, true⟩ ⟨0, ActionKind.Deposit 4, ActionStatus.Disputed⟩
    rfl rfl rfl rfl rfl rfl⟩

/-- Soundness of `StepShape`: every successful step is of one of the
listed shapes. -/
theorem step_cases {p : Payments} {t : Transaction} {p' : Payments}
    (h : processTransaction p t = some p') : StepShape p t p' := by
  obtain ⟨k, c, kind⟩ := t
  cases hacct : getAccount p.accounts c with
  | none => rw [processTransaction, hacct] at h; exact absurd h (by simp)
  | some acct =>
    by_cases hl : acct.is_locked
    · rw [step_locked hacct hl] at h
      cases h
      exact StepShape.locked acct hacct hl
    · rw [Bool.not_eq_true] at hl
      cases kind with
      | Deposit am =>
        rw [step_deposit hacct hl] at h
        cases h
        exact StepShape.deposit acct am hacct hl rfl
      | Withdrawal am =>
        by_cases hav : acct.total - acct.held ≥ am
        · rw [step_withdrawal_ok hacct hl hav] at h
          cases h
          exact StepShape.wdOk acct am hacct hl rfl hav
        · rw [step_withdrawal_fail hacct hl hav] at h
          cases h
          exact StepShape.wdFail acct am hacct hl rfl hav
      | Dispute =>
        cases hlook : lookupAction p.actions k with
        | none =>
          rw [step_correction_noop (by simp) hacct hl (Or.inl hlook)] at h
          cases h
          exact StepShape.noop acct hacct hl (by simp) (Or.inl hlook)
        | some a =>
          by_cases hcid : a.cid = c
          · by_cases hst : a.status = ActionStatus.Fresh
            · cases hak : a.kind with
              | Deposit am =>
                rw [step_dispute_deposit hacct hl hlook hcid hst hak] at h
                cases h
                exact StepShape.disputeDep acct a am hacct hl rfl hlook
                  hcid hst hak
              | Withdrawal am =>
                rw [step_dispute_withdrawal hacct hl hlook hcid hst hak] at h
                cases h
                exact StepShape.disputeWd acct a am hacct hl rfl hlook
                  hcid hst hak
            · rw [step_correction_noop (by simp) hacct hl
                (Or.inr ⟨a, hlook, Or.inr (Or.inl ⟨rfl, hst⟩)⟩)] at h
              cases h
              exact StepShape.noop acct hacct hl (by simp)
                (Or.inr ⟨a, hlook, Or.inr (Or.inl ⟨rfl, hst⟩)⟩)
          · rw [step_correction_noop (by simp) hacct hl
              (Or.inr ⟨a, hlook, Or.inl hcid⟩)] at h
            cases h
            exact StepShape.noop acct hacct hl (by simp)
              (Or.inr ⟨a, hlook, Or.inl hcid⟩)
      | Resolve =>
        cases hlook : lookupAction p.actions k with
        | none =>
          rw [step_correction_noop (by simp) hacct hl (Or.inl hlook)] at h
          cases h
          exact StepShape.noop acct hacct hl (by simp) (Or.inl hlook)
        | some a =>
          by_cases hcid : a.cid = c
          · by_cases hst : a.status = ActionStatus.Disputed
            · cases hak : a.kind with
              | Deposit am =>
                rw [step_resolve_deposit hacct hl hlook hcid hst hak] at h
                cases h
                exact StepShape.resolveDep acct a am hacct hl rfl hlook
                  hcid hst hak
              | Withdrawal am =>
                rw [step_resolve_withdrawal hacct hl hlook hcid hst hak] at h
                cases h
                exact StepShape.resolveWd acct a am hacct hl rfl hlook
                  hcid hst hak
            · rw [step_correction_noop (by simp) hacct hl
                (Or.inr ⟨a, hlook, Or.inr (Or.inr ⟨by simp, hst⟩)⟩)] at h
              cases h
              exact StepShape.noop acct hacct hl (by simp)
                (Or.inr ⟨a, hlook, Or.inr (Or.inr ⟨by simp, hst⟩)⟩)
          · rw [step_correction_noop (by simp) hacct hl
              (Or.inr ⟨a, hlook, Or.inl hcid⟩)] at h
            cases h
            exact StepShape.noop acct hacct hl (by simp)
              (Or.inr ⟨a, hlook, Or.inl hcid⟩)
      | Chargeback =>
        cases hlook : lookupAction p.actions k with
        | none =>
          rw [step_correction_noop (by simp) hacct hl (Or.inl hlook)] at h
          cases h
          exact StepShape.noop acct hacct hl (by simp) (Or.inl hlook)
        | some a =>
          by_cases hcid : a.cid = c
          · by_cases hst : a.status = ActionStatus.Disputed
            · cases hak : a.kind with
              | Deposit am =>
                rw [step_chargeback_deposit hacct hl hlook hcid hst hak] at h
                cases h
                exact StepShape.cbDep acct a am hacct hl rfl hlook
                  hcid hst hak
              | Withdrawal am =>
                rw [step_chargeback_withdrawal hacct hl hlook hcid hst hak]
                  at h
                cases h
                exact StepShape.cbWd acct a am hacct hl rfl hlook
                  hcid hst hak
            · rw [step_correction_noop (by simp) hacct hl
                (Or.inr ⟨a, hlook, Or.inr (Or.inr ⟨by simp, hst⟩)⟩)] at h
              cases h
              exact StepShape.noop acct hacct hl (by simp)
                (Or.inr ⟨a, hlook, Or.inr (Or.inr ⟨by simp, hst⟩)⟩)
          · rw [step_correction_noop (by simp) hacct hl
              (Or.inr ⟨a, hlook, Or.inl hcid⟩)] at h
            cases h
            exact StepShape.noop acct hacct hl (by simp)
              (Or.inr ⟨a, hlook, Or.inl hcid⟩)

theorem lockedAt_set_preserve {l : List Account}
    {acts acts2 : List (ℕ × Action)} {i c : ℕ} {acct A : Account}
    (hacct : getAccount l i = some acct) (hl : acct.is_locked = false)
    (hc : lockedAt ⟨l, acts⟩ c = true) : lockedAt ⟨l.set i A, acts2⟩ c = true := by
  by_cases hic : i = c
  · subst hic
    rw [lockedAt, hacct] at hc
    simp [hl] at hc
  · rw [lockedAt]
    show ((getAccount (l.set i A) c).map Account.is_locked).getD false = true
    rw [getAccount_set_ne _ hic]
    exact hc

theorem step_preserves_locked {p : Payments} {t : Transaction} {p' : Payments}
    (h : processTransaction p t = some p') {c : ℕ}
    (hc : lockedAt p c = true) : lockedAt p' c = true := by
  cases step_cases h with
  | locked acct hacct hl => exact hc
  | deposit acct am hacct hl hk => exact lockedAt_set_preserve hacct hl hc
  | wdOk acct am hacct hl hk hav => exact lockedAt_set_preserve hacct hl hc
  | wdFail acct am hacct hl hk hav => exact lockedAt_set_preserve hacct hl hc
  | noop acct hacct hl hcorr hno => exact lockedAt_set_preserve hacct hl hc
  | disputeDep acct a am hacct hl hk hlook hcid hst hak =>
    exact lockedAt_set_preserve hacct hl hc
  | disputeWd acct a am hacct hl hk hlook hcid hst hak =>
    exact lockedAt_set_preserve hacct hl hc
  | resolveDep acct a am hacct hl hk hlook hcid hst hak =>
    exact lockedAt_set_preserve hacct hl hc
  | resolveWd acct a am hacct hl hk hlook hcid hst hak =>
    exact lockedAt_set_preserve hacct hl hc
  | cbDep acct a am hacct hl hk hlook hcid hst hak =>
    exact lockedAt_set_preserve hacct hl hc
  | cbWd acct a am hacct hl hk hlook hcid hst hak =>
    exact lockedAt_set_preserve hacct hl hc

theorem processAll_preserves_locked {ts : List Transaction} {p p' : Payments}
    (h : processAll p ts = some p') {c : ℕ}
    (hc : lockedAt p c = true) : lockedAt p' c = true := by
  induction ts generalizing p with
  | nil =>
    rw [processAll] at h
    cases h
    exact hc
  | cons t ts ih =>
    rw [processAll] at h
    cases hstep : processTransaction p t with
    | none => rw [hstep] at h; exact absurd h (by simp)
    | some q =>
      rw [hstep] at h
      exact ih h (step_preserves_locked hstep hc)

/-- C4: a record addressed to a locked client leaves the entire ledger
state unchanged (balances, `has_activity`, actions — everything), and no
record ever turns `is_locked` back off: lockedness persists through a
single step and through any remaining record sequence. -/
theorem payments_C4_locked_inert :
    (∀ (p : Payments) (t : Transaction) (acct : Account),
      getAccount p.accounts t.cid = some acct → acct.is_locked = true →
      processTransaction p t = some p) ∧
    (∀ (p : Payments) (t : Transaction) (p' : Payments),
      processTransaction p t = some p' →
      ∀ c, lockedAt p c = true → lockedAt p' c = true) ∧
    (∀ (p : Payments) (ts : List Transaction) (p' : Payments),
      processAll p ts = some p' →
      ∀ c, lockedAt p c = true → lockedAt p' c = true) :=
  ⟨fun _ _ _ hacct hl => step_locked hacct hl,
   fun _ _ _ h c hc => step_preserves_locked h hc,
   fun _ _ _ h c hc => processAll_preserves_locked h hc⟩

/-- Witness for C4 at a concrete locked account. -/
theorem payments_C4_witness :
    getAccount (Payments.mk [⟨1, 0, true, true⟩] []).accounts 0 =
      some ⟨1, 0, true, true⟩ ∧
    (⟨1, 0, true, true⟩ : Account).is_locked = true ∧
    processTransaction (Payments.mk [⟨1, 0, true, true⟩] [])
      ⟨0, 0, TransactionKind.Deposit 5⟩ =
      some (Payments.mk [⟨1, 0, true, true⟩] []) ∧
    lockedAt (Payments.mk [⟨1, 0, true, true⟩] []) 0 = true :=
  ⟨rfl, rfl,
   payments_C4_locked_inert.1 (Payments.mk [⟨1, 0, true, true⟩] [])
     ⟨0, 0, TransactionKind.Deposit 5⟩ ⟨1, 0, true, true⟩ rfl rfl,
   payments_C4_locked_inert.2.2 (Payments.mk [⟨1, 0, true, true⟩] [])
     [⟨0, 0, TransactionKind.Deposit 5⟩] (Payments.mk [⟨1, 0, true, true⟩] [])
     rfl 0 rfl⟩

/-- Full run of Scenario C (deposit 100, withdrawal 50, dispute of the
withdrawal, resolve) on a fresh ledger: the resolve leaves `total = 100`
because resolving a disputed withdrawal only releases the held funds. -/
theorem scenarioC_run :
    ∃ p', processAll Payments.initial
        [⟨0, 0, TransactionKind.Deposit 100⟩,
         ⟨1, 0, TransactionKind.Withdrawal 50⟩,
         ⟨1, 0, TransactionKind.Dispute⟩,
         ⟨1, 0, TransactionKind.Resolve⟩] = some p' ∧
      totalAt p' 0 = 100 ∧ heldAt p' 0 = 0 ∧ lockedAt p' 0 = false := by
  have h1 : processTransaction Payments.initial
      ⟨0, 0, TransactionKind.Deposit 100⟩ =
      some ⟨⟨0 + 100, 0, false, true⟩ ::
              List.replicate 65535 Account.initial,
            [(0, ⟨0, ActionKind.Deposit 100, ActionStatus.Fresh⟩)]⟩ :=
    step_deposit (getAccount_initial (by norm_num)) rfl
  have h2 : processTransaction
      ⟨⟨0 + 100, 0, false, true⟩ :: List.replicate 65535 Account.initial,
       [(0, ⟨0, ActionKind.Deposit 100, ActionStatus.Fresh⟩)]⟩
      ⟨1, 0, TransactionKind.Withdrawal 50⟩ =
      some ⟨⟨0 + 100 - 50, 0, false, true⟩ ::
              List.replicate 65535 Account.initial,
            [(1, ⟨0, ActionKind.Withdrawal 50, ActionStatus.Fresh⟩),
             (0, ⟨0, ActionKind.Deposit 100, ActionStatus.Fresh⟩)]⟩ :=
    @step_withdrawal_ok
      ⟨⟨0 + 100, 0, false, true⟩ :: List.replicate 65535 Account.initial,
       [(0, ⟨0, ActionKind.Deposit 100, ActionStatus.Fresh⟩)]⟩
      1 0 50 ⟨0 + 100, 0, false, true⟩ rfl rfl (by norm_num)
  have h3 : processTransaction
      ⟨⟨0 + 100 - 50, 0, false, true⟩ :: List.replicate 65535 Account.initial,
       [(1, ⟨0, ActionKind.Withdrawal 50, ActionStatus.Fresh⟩),
        (0, ⟨0, ActionKind.Deposit 100, ActionStatus.Fresh⟩)]⟩
      ⟨1, 0, TransactionKind.Dispute⟩ =
      some ⟨⟨0 + 100 - 50 + 50, 0 + 50, false, true⟩ ::
              List.replicate 65535 Account.initial,
            [(1, ⟨0, ActionKind.Withdrawal 50, ActionStatus.Disputed⟩),
             (0, ⟨0, ActionKind.Deposit 100, ActionStatus.Fresh⟩)]⟩ :=
    @step_dispute_withdrawal
      ⟨⟨0 + 100 - 50, 0, false, true⟩ :: List.replicate 65535 Account.initial,
       [(1, ⟨0, ActionKind.Withdrawal 50, ActionStatus.Fresh⟩),
        (0, ⟨0, ActionKind.Deposit 100, ActionStatus.Fresh⟩)]⟩
      1 0 50 ⟨0 + 100 - 50, 0, false, true⟩
      ⟨0, ActionKind.Withdrawal 50, ActionStatus.Fresh⟩
      rfl rfl rfl rfl rfl rfl
  have h4 : processTransaction
      ⟨⟨0 + 100 - 50 + 50, 0 + 50, false, true⟩ ::
         List.replicate 65535 Account.initial,
       [(1, ⟨0, ActionKind.Withdrawal 50, ActionStatus.Disputed⟩),
        (0, ⟨0, ActionKind.Deposit 100, ActionStatus.Fresh⟩)]⟩
      ⟨1, 0, TransactionKind.Resolve⟩ =
      some ⟨⟨0 + 100 - 50 + 50, 0 + 50 - 50, false, true⟩ ::
              List.replicate 65535 Account.initial,
            [(1, ⟨0, ActionKind.Withdrawal 50, ActionStatus.Final⟩),
             (0, ⟨0, ActionKind.Deposit 100, ActionStatus.Fresh⟩)]⟩ :=
    @step_resolve_withdrawal
      ⟨⟨0 + 100 - 50 + 50, 0 + 50, false, true⟩ ::
         List.replicate 65535 Account.initial,
       [(1, ⟨0, ActionKind.Withdrawal 50, ActionStatus.Disputed⟩),
        (0, ⟨0, ActionKind.Deposit 100, ActionStatus.Fresh⟩)]⟩
      1 0 50 ⟨0 + 100 - 50 + 50, 0 + 50, false, true⟩
      ⟨0, ActionKind.Withdrawal 50, ActionStatus.Disputed⟩
      rfl rfl rfl rfl rfl rfl
  refine ⟨⟨⟨0 + 100 - 50 + 50, 0 + 50 - 50, false, true⟩ ::
             List.replicate 65535 Account.initial,
           [(1, ⟨0, ActionKind.Withdrawal 50, ActionStatus.Final⟩),
            (0, ⟨0, ActionKind.Deposit 100, ActionStatus.Fresh⟩)]⟩,
    ?_, ?_, ?_, ?_⟩
  · simp only [processAll, h1, h2, h3, h4]
  · norm_num [totalAt, getAccount]
  · norm_num [heldAt, getAccount]
  · rfl

/-- C1 counterexample: Scenario C on the code yields `total = 100`, not
the claimed `total = 50`. -/
theorem payments_C1_counterexample :
    ¬ (∀ p', processAll Payments.initial
        [⟨0, 0, TransactionKind.Deposit 100⟩,
         ⟨1, 0, TransactionKind.Withdrawal 50⟩,
         ⟨1, 0, TransactionKind.Dispute⟩,
         ⟨1, 0, TransactionKind.Resolve⟩] = some p' →
      totalAt p' 0 = 50 ∧ heldAt p' 0 = 0 ∧ lockedAt p' 0 = false) := by
  intro hclaim
  obtain ⟨p', hrun, htot, _, _⟩ := scenarioC_run
  have h50 := (hclaim p' hrun).1
  rw [htot] at h50
  norm_num at h50

/-- C1 amended: deposit(0,0,100), withdrawal(0,1,50), dispute(0,1),
resolve(0,1) on a fresh ledger leaves account 0 with `total = 100`,
`held = 0`, `locked = false`. -/
theorem payments_C1_amended :
    ∃ p', processAll Payments.initial
        [⟨0, 0, TransactionKind.Deposit 100⟩,
         ⟨1, 0, TransactionKind.Withdrawal 50⟩,
         ⟨1, 0, TransactionKind.Dispute⟩,
         ⟨1, 0, TransactionKind.Resolve⟩] = some p' ∧
      totalAt p' 0 = 100 ∧ heldAt p' 0 = 0 ∧ lockedAt p' 0 = false :=
  scenarioC_run

theorem totalAt_mk_set {l : List Account} {m m2 : List (ℕ × Action)}
    {i : ℕ} {acct A : Account} (hacct : getAccount l i = some acct)
    (hT : A.total = acct.total) (c : ℕ) :
    totalAt ⟨l.set i A, m2⟩ c = totalAt ⟨l, m⟩ c := by
  by_cases hic : i = c
  · subst hic
    show ((getAccount (l.set i A) i).map Account.total).getD 0 =
      ((getAccount l i).map Account.total).getD 0
    rw [getAccount_set_self _ (getAccount_some_lt hacct), hacct]
    simp [hT]
  · show ((getAccount (l.set i A) c).map Account.total).getD 0 =
      ((getAccount l c).map Account.total).getD 0
    rw [getAccount_set_ne _ hic]

theorem heldAt_mk_set {l : List Account} {m m2 : List (ℕ × Action)}
    {i : ℕ} {acct A : Account} (hacct : getAccount l i = some acct)
    (hH : A.held = acct.held) (c : ℕ) :
    heldAt ⟨l.set i A, m2⟩ c = heldAt ⟨l, m⟩ c := by
  by_cases hic : i = c
  · subst hic
    show ((getAccount (l.set i A) i).map Account.held).getD 0 =
      ((getAccount l i).map Account.held).getD 0
    rw [getAccount_set_self _ (getAccount_some_lt hacct), hacct]
    simp [hH]
  · show ((getAccount (l.set i A) c).map Account.held).getD 0 =
      ((getAccount l c).map Account.held).getD 0
    rw [getAccount_set_ne _ hic]

/-- C6 (amended): across one processed record, stored actions change only
as follows — a dispute of a non-Fresh action and a resolve or chargeback
of a non-Disputed action change no stored action and no balances; a
dispute, resolve or chargeback never changes a Final action; and the
action stored under a key changes only by being created or replaced
Fresh by a deposit/withdrawal, moved Fresh → Disputed by a successful
dispute, or moved Disputed → Final by a successful resolve or
chargeback. -/
theorem payments_C6_amended :
    ∀ (p : Payments) (t : Transaction) (p' : Payments),
      processTransaction p t = some p' →
      (∀ a, t.kind = TransactionKind.Dispute →
        lookupAction p.actions t.tid = some a →
        a.status ≠ ActionStatus.Fresh →
        p'.actions = p.actions ∧
        ∀ c, totalAt p' c = totalAt p c ∧ heldAt p' c = heldAt p c) ∧
      (∀ a, (t.kind = TransactionKind.Resolve ∨
          t.kind = TransactionKind.Chargeback) →
        lookupAction p.actions t.tid = some a →
        a.status ≠ ActionStatus.Disputed →
        p'.actions = p.actions ∧
        ∀ c, totalAt p' c = totalAt p c ∧ heldAt p' c = heldAt p c) ∧
      ((t.kind = TransactionKind.Dispute ∨
        t.kind = TransactionKind.Resolve ∨
        t.kind = TransactionKind.Chargeback) →
        ∀ k a, lookupAction p.actions k = some a →
          a.status = ActionStatus.Final →
          lookupAction p'.actions k = some a) ∧
      (∀ k a', lookupAction p'.actions k = some a' →
        lookupAction p.actions k = some a' ∨
        (k = t.tid ∧
          ((∃ am, (t.kind = TransactionKind.Deposit am ∨
              t.kind = TransactionKind.Withdrawal am) ∧
            a'.status = ActionStatus.Fresh) ∨
           (∃ a, lookupAction p.actions k = some a ∧
             ((t.kind = TransactionKind.Dispute ∧
                a.status = ActionStatus.Fresh ∧
                a' = { a with status := ActionStatus.Disputed }) ∨
              ((t.kind = TransactionKind.Resolve ∨
                 t.kind = TransactionKind.Chargeback) ∧
                a.status = ActionStatus.Disputed ∧
                a' = { a with status := ActionStatus.Final })))))) := by
  intro p t p' h
  have shape := step_cases h
  refine ⟨?_, ?_, ?_, ?_⟩
  · -- dispute of a non-Fresh action is a pure no-op
    intro a htk hlook hst
    cases shape with
    | locked acct hacct hl => exact ⟨rfl, fun c => ⟨rfl, rfl⟩⟩
    | deposit acct am hacct hl hk => rw [hk] at htk; simp at htk
    | wdOk acct am hacct hl hk hav => rw [hk] at htk; simp at htk
    | wdFail acct am hacct hl hk hav => rw [hk] at htk; simp at htk
    | noop acct hacct hl hcorr hno =>
      exact ⟨rfl, fun c =>
        ⟨totalAt_mk_set (A := { acct with has_activity := true }) hacct rfl c,
         heldAt_mk_set (A := { acct with has_activity := true }) hacct rfl c⟩⟩
    | disputeDep acct a0 am hacct hl hk hlook0 hcid hst0 hak =>
      rw [hlook0] at hlook
      injection hlook with he
      subst he
      exact absurd hst0 hst
    | disputeWd acct a0 am hacct hl hk hlook0 hcid hst0 hak =>
      rw [hlook0] at hlook
      injection hlook with he
      subst he
      exact absurd hst0 hst
    | resolveDep acct a0 am hacct hl hk hlook0 hcid hst0 hak =>
      rw [hk] at htk; simp at htk
    | resolveWd acct a0 am hacct hl hk hlook0 hcid hst0 hak =>
      rw [hk] at htk; simp at htk
    | cbDep acct a0 am hacct hl hk hlook0 hcid hst0 hak =>
      rw [hk] at htk; simp at htk
    | cbWd acct a0 am hacct hl hk hlook0 hcid hst0 hak =>
      rw [hk] at htk; simp at htk
  · -- resolve / chargeback of a non-Disputed action is a pure no-op
    intro a htk hlook hst
    cases shape with
    | locked acct hacct hl => exact ⟨rfl, fun c => ⟨rfl, rfl⟩⟩
    | deposit acct am hacct hl hk =>
      rcases htk with h1 | h1 <;> (rw [hk] at h1; simp at h1)
    | wdOk acct am hacct hl hk hav =>
      rcases htk with h1 | h1 <;> (rw [hk] at h1; simp at h1)
    | wdFail acct am hacct hl hk hav =>
      rcases htk with h1 | h1 <;> (rw [hk] at h1; simp at h1)
    | noop acct hacct hl hcorr hno =>
      exact ⟨rfl, fun c =>
        ⟨totalAt_mk_set (A := { acct with has_activity := true }) hacct rfl c,
         heldAt_mk_set (A := { acct with has_activity := true }) hacct rfl c⟩⟩
    | disputeDep acct a0 am hacct hl hk hlook0 hcid hst0 hak =>
      rcases htk with h1 | h1 <;> (rw [hk] at h1; simp at h1)
    | disputeWd acct a0 am hacct hl hk hlook0 hcid hst0 hak =>
      rcases htk with h1 | h1 <;> (rw [hk] at h1; simp at h1)
    | resolveDep acct a0 am hacct hl hk hlook0 hcid hst0 hak =>
      rw [hlook0] at hlook
      injection hlook with he
      subst he
      exact absurd hst0 hst
    | resolveWd acct a0 am hacct hl hk hlook0 hcid hst0 hak =>
      rw [hlook0] at hlook
      injection hlook with he
      subst he
      exact absurd hst0 hst
    | cbDep acct a0 am hacct hl hk hlook0 hcid hst0 hak =>
      rw [hlook0] at hlook
      injection hlook with he
      subst he
      exact absurd hst0 hst
    | cbWd acct a0 am hacct hl hk hlook0 hcid hst0 hak =>
      rw [hlook0] at hlook
      injection hlook with he
      subst he
      exact absurd hst0 hst
  · -- a Final action survives any dispute / resolve / chargeback unchanged
    intro hcorr k a hlook hfin
    cases shape with
    | locked acct hacct hl => exact hlook
    | deposit acct am hacct hl hk =>
      rcases hcorr with h1 | h1 | h1 <;> (rw [hk] at h1; simp at h1)
    | wdOk acct am hacct hl hk hav =>
      rcases hcorr with h1 | h1 | h1 <;> (rw [hk] at h1; simp at h1)
    | wdFail acct am hacct hl hk hav => exact hlook
    | noop acct hacct hl hcorr2 hno => exact hlook
    | disputeDep acct a0 am hacct hl hk hlook0 hcid hst0 hak =>
      show lookupAction
        (setActionStatus p.actions t.tid ActionStatus.Disputed) k = some a
      rw [lookupAction_setActionStatus]
      by_cases hk2 : t.tid = k
      · subst hk2
        rw [hlook0] at hlook
        injection hlook with he
        subst he
        rw [hst0] at hfin
        exact absurd hfin (by simp)
      · rw [if_neg hk2]
        exact hlook
    | disputeWd acct a0 am hacct hl hk hlook0 hcid hst0 hak =>
      show lookupAction
        (setActionStatus p.actions t.tid ActionStatus.Disputed) k = some a
      rw [lookupAction_setActionStatus]
      by_cases hk2 : t.tid = k
      · subst hk2
        rw [hlook0] at hlook
        injection hlook with he
        subst he
        rw [hst0] at hfin
        exact absurd hfin (by simp)
      · rw [if_neg hk2]
        exact hlook
    | resolveDep acct a0 am hacct hl hk hlook0 hcid hst0 hak =>
      show lookupAction
        (setActionStatus p.actions t.tid ActionStatus.Final) k = some a
      rw [lookupAction_setActionStatus]
      by_cases hk2 : t.tid = k
      · subst hk2
        rw [hlook0] at hlook
        injection hlook with he
        subst he
        rw [hst0] at hfin
        exact absurd hfin (by simp)
      · rw [if_neg hk2]
        exact hlook
    | resolveWd acct a0 am hacct hl hk hlook0 hcid hst0 hak =>
      show lookupAction
        (setActionStatus p.actions t.tid ActionStatus.Final) k = some a
      rw [lookupAction_setActionStatus]
      by_cases hk2 : t.tid = k
      · subst hk2
        rw [hlook0] at hlook
        injection hlook with he
        subst he
        rw [hst0] at hfin
        exact absurd hfin (by simp)
      · rw [if_neg hk2]
        exact hlook
    | cbDep acct a0 am hacct hl hk hlook0 hcid hst0 hak =>
      show lookupAction
        (setActionStatus p.actions t.tid ActionStatus.Final) k = some a
      rw [lookupAction_setActionStatus]
      by_cases hk2 : t.tid = k
      · subst hk2
        rw [hlook0] at hlook
        injection hlook with he
        subst he
        rw [hst0] at hfin
        exact absurd hfin (by simp)
      · rw [if_neg hk2]
        exact hlook
    | cbWd acct a0 am hacct hl hk hlook0 hcid hst0 hak =>
      show lookupAction
        (setActionStatus p.actions t.tid ActionStatus.Final) k = some a
      rw [lookupAction_setActionStatus]
      by_cases hk2 : t.tid = k
      · subst hk2
        rw [hlook0] at hlook
        injection hlook with he
        subst he
        rw [hst0] at hfin
        exact absurd hfin (by simp)
      · rw [if_neg hk2]
        exact hlook
  · -- the status progression itself
    intro k a' hlook'
    cases shape with
    | locked acct hacct hl => exact Or.inl hlook'
    | deposit acct am hacct hl hk =>
      rw [show (⟨p.accounts.set t.cid
            { acct with has_activity := true, total := acct.total + am },
          insertAction p.actions t.tid
            ⟨t.cid, ActionKind.Deposit am, ActionStatus.Fresh⟩⟩ :
            Payments).actions =
          insertAction p.actions t.tid
            ⟨t.cid, ActionKind.Deposit am, ActionStatus.Fresh⟩ from rfl,
        lookupAction_insertAction] at hlook'
      by_cases hk2 : t.tid = k
      · rw [if_pos hk2] at hlook'
        injection hlook' with he
        subst he
        exact Or.inr ⟨hk2.symm, Or.inl ⟨am, Or.inl hk, rfl⟩⟩
      · rw [if_neg hk2] at hlook'
        exact Or.inl hlook'
    | wdOk acct am hacct hl hk hav =>
      rw [show (⟨p.accounts.set t.cid
            { acct with has_activity := true, total := acct.total - am },
          insertAction p.actions t.tid
            ⟨t.cid, ActionKind.Withdrawal am, ActionStatus.Fresh⟩⟩ :
            Payments).actions =
          insertAction p.actions t.tid
            ⟨t.cid, ActionKind.Withdrawal am, ActionStatus.Fresh⟩ from rfl,
        lookupAction_insertAction] at hlook'
      by_cases hk2 : t.tid = k
      · rw [if_pos hk2] at hlook'
        injection hlook' with he
        subst he
        exact Or.inr ⟨hk2.symm, Or.inl ⟨am, Or.inr hk, rfl⟩⟩
      · rw [if_neg hk2] at hlook'
        exact Or.inl hlook'
    | wdFail acct am hacct hl hk hav => exact Or.inl hlook'
    | noop acct hacct hl hcorr hno => exact Or.inl hlook'
    | disputeDep acct a0 am hacct hl hk hlook0 hcid hst0 hak =>
      rw [show (⟨p.accounts.set t.cid
            { acct with has_activity := true, held := acct.held + am },
          setActionStatus p.actions t.tid ActionStatus.Disputed⟩ :
            Payments).actions =
          setActionStatus p.actions t.tid ActionStatus.Disputed from rfl,
        lookupAction_setActionStatus] at hlook'
      by_cases hk2 : t.tid = k
      · rw [if_pos hk2, ← hk2, hlook0] at hlook'
        injection hlook' with he
        subst he
        exact Or.inr ⟨hk2.symm,
          Or.inr ⟨a0, hk2 ▸ hlook0, Or.inl ⟨hk, hst0, rfl⟩⟩⟩
      · rw [if_neg hk2] at hlook'
        exact Or.inl hlook'
    | disputeWd acct a0 am hacct hl hk hlook0 hcid hst0 hak =>
      rw [show (⟨p.accounts.set t.cid
            { acct with has_activity := true, total := acct.total + am,
                        held := acct.held + am },
          setActionStatus p.actions t.tid ActionStatus.Disputed⟩ :
            Payments).actions =
          setActionStatus p.actions t.tid ActionStatus.Disputed from rfl,
        lookupAction_setActionStatus] at hlook'
      by_cases hk2 : t.tid = k
      · rw [if_pos hk2, ← hk2, hlook0] at hlook'
        injection hlook' with he
        subst he
        exact Or.inr ⟨hk2.symm,
          Or.inr ⟨a0, hk2 ▸ hlook0, Or.inl ⟨hk, hst0, rfl⟩⟩⟩
      · rw [if_neg hk2] at hlook'
        exact Or.inl hlook'
    | resolveDep acct a0 am hacct hl hk hlook0 hcid hst0 hak =>
      rw [show (⟨p.accounts.set t.cid
            { acct with has_activity := true, total := acct.total - am,
                        held := acct.held - am },
          setActionStatus p.actions t.tid ActionStatus.Final⟩ :
            Payments).actions =
          setActionStatus p.actions t.tid ActionStatus.Final from rfl,
        lookupAction_setActionStatus] at hlook'
      by_cases hk2 : t.tid = k
      · rw [if_pos hk2, ← hk2, hlook0] at hlook'
        injection hlook' with he
        subst he
        exact Or.inr ⟨hk2.symm,
          Or.inr ⟨a0, hk2 ▸ hlook0, Or.inr ⟨Or.inl hk, hst0, rfl⟩⟩⟩
      · rw [if_neg hk2] at hlook'
        exact Or.inl hlook'
    | resolveWd acct a0 am hacct hl hk hlook0 hcid hst0 hak =>
      rw [show (⟨p.accounts.set t.cid
            { acct with has_activity := true, held := acct.held - am },
          setActionStatus p.actions t.tid ActionStatus.Final⟩ :
            Payments).actions =
          setActionStatus p.actions t.tid ActionStatus.Final from rfl,
        lookupAction_setActionStatus] at hlook'
      by_cases hk2 : t.tid = k
      · rw [if_pos hk2, ← hk2, hlook0] at hlook'
        injection hlook' with he
        subst he
        exact Or.inr ⟨hk2.symm,
          Or.inr ⟨a0, hk2 ▸ hlook0, Or.inr ⟨Or.inl hk, hst0, rfl⟩⟩⟩
      · rw [if_neg hk2] at hlook'
        exact Or.inl hlook'
    | cbDep acct a0 am hacct hl hk hlook0 hcid hst0 hak =>
      rw [show (⟨p.accounts.set t.cid
            { acct with has_activity := true, held := acct.held - am,
                        is_locked := true },
          setActionStatus p.actions t.tid ActionStatus.Final⟩ :
            Payments).actions =
          setActionStatus p.actions t.tid ActionStatus.Final from rfl,
        lookupAction_setActionStatus] at hlook'
      by_cases hk2 : t.tid = k
      · rw [if_pos hk2, ← hk2, hlook0] at hlook'
        injection hlook' with he
        subst he
        exact Or.inr ⟨hk2.symm,
          Or.inr ⟨a0, hk2 ▸ hlook0, Or.inr ⟨Or.inr hk, hst0, rfl⟩⟩⟩
      · rw [if_neg hk2] at hlook'
        exact Or.inl hlook'
    | cbWd acct a0 am hacct hl hk hlook0 hcid hst0 hak =>
      rw [show (⟨p.accounts.set t.cid
            { acct with has_activity := true, held := acct.held - am,
                        total := acct.total - am, is_locked := true },
          setActionStatus p.actions t.tid ActionStatus.Final⟩ :
            Payments).actions =
          setActionStatus p.actions t.tid ActionStatus.Final from rfl,
        lookupAction_setActionStatus] at hlook'
      by_cases hk2 : t.tid = k
      · rw [if_pos hk2, ← hk2, hlook0] at hlook'
        injection hlook' with he
        subst he
        exact Or.inr ⟨hk2.symm,
          Or.inr ⟨a0, hk2 ▸ hlook0, Or.inr ⟨Or.inr hk, hst0, rfl⟩⟩⟩
      · rw [if_neg hk2] at hlook'
        exact Or.inl hlook'

/-- C6 counterexample: a deposit that reuses the transaction id of a
finalised action replaces it with a Fresh action, so the status stored
under that id changes out of Final. -/
theorem payments_C6_counterexample :
    ∃ p3 p4,
      processAll Payments.initial
        [⟨0, 0, TransactionKind.Deposit 5⟩,
         ⟨0, 0, TransactionKind.Dispute⟩,
         ⟨0, 0, TransactionKind.Resolve⟩] = some p3 ∧
      processTransaction p3 ⟨0, 0, TransactionKind.Deposit 7⟩ = some p4 ∧
      statusAt p3 0 = some ActionStatus.Final ∧
      statusAt p4 0 = some ActionStatus.Fresh ∧
      some ActionStatus.Fresh ≠ some ActionStatus.Final := by
  have h1 : processTransaction Payments.initial
      ⟨0, 0, TransactionKind.Deposit 5⟩ =
      some ⟨⟨0 + 5, 0, false, true⟩ :: List.replicate 65535 Account.initial,
            [(0, ⟨0, ActionKind.Deposit 5, ActionStatus.Fresh⟩)]⟩ :=
    step_deposit (getAccount_initial (by norm_num)) rfl
  have h2 : processTransaction
      ⟨⟨0 + 5, 0, false, true⟩ :: List.replicate 65535 Account.initial,
       [(0, ⟨0, ActionKind.Deposit 5, ActionStatus.Fresh⟩)]⟩
      ⟨0, 0, TransactionKind.Dispute⟩ =
      some ⟨⟨0 + 5, 0 + 5, false, true⟩ ::
              List.replicate 65535 Account.initial,
            [(0, ⟨0, ActionKind.Deposit 5, ActionStatus.Disputed⟩)]⟩ :=
    @step_dispute_deposit
      ⟨⟨0 + 5, 0, false, true⟩ :: List.replicate 65535 Account.initial,
       [(0, ⟨0, ActionKind.Deposit 5, ActionStatus.Fresh⟩)]⟩
      0 0 5 ⟨0 + 5, 0, false, true⟩
      ⟨0, ActionKind.Deposit 5, ActionStatus.Fresh⟩
      rfl rfl rfl rfl rfl rfl
  have h3 : processTransaction
      ⟨⟨0 + 5, 0 + 5, false, true⟩ :: List.replicate 65535 Account.initial,
       [(0, ⟨0, ActionKind.Deposit 5, ActionStatus.Disputed⟩)]⟩
      ⟨0, 0, TransactionKind.Resolve⟩ =
      some ⟨⟨0 + 5 - 5, 0 + 5 - 5, false, true⟩ ::
              List.replicate 65535 Account.initial,
            [(0, ⟨0, ActionKind.Deposit 5, ActionStatus.Final⟩)]⟩ :=
    @step_resolve_deposit
      ⟨⟨0 + 5, 0 + 5, false, true⟩ :: List.replicate 65535 Account.initial,
       [(0, ⟨0, ActionKind.Deposit 5, ActionStatus.Disputed⟩)]⟩
      0 0 5 ⟨0 + 5, 0 + 5, false, true⟩
      ⟨0, ActionKind.Deposit 5, ActionStatus.Disputed⟩
      rfl rfl rfl rfl rfl rfl
  have h4 : processTransaction
      ⟨⟨0 + 5 - 5, 0 + 5 - 5, false, true⟩ ::
         List.replicate 65535 Account.initial,
       [(0, ⟨0, ActionKind.Deposit 5, ActionStatus.Final⟩)]⟩
      ⟨0, 0, TransactionKind.Deposit 7⟩ =
      some ⟨⟨0 + 5 - 5 + 7, 0 + 5 - 5, false, true⟩ ::
              List.replicate 65535 Account.initial,
            [(0, ⟨0, ActionKind.Deposit 7, ActionStatus.Fresh⟩)]⟩ :=
    @step_deposit
      ⟨⟨0 + 5 - 5, 0 + 5 - 5, false, true⟩ ::
         List.replicate 65535 Account.initial,
       [(0, ⟨0, ActionKind.Deposit 5, ActionStatus.Final⟩)]⟩
      0 0 7 ⟨0 + 5 - 5, 0 + 5 - 5, false, true⟩ rfl rfl
  refine ⟨⟨⟨0 + 5 - 5, 0 + 5 - 5, false, true⟩ ::
             List.replicate 65535 Account.initial,
           [(0, ⟨0, ActionKind.Deposit 5, ActionStatus.Final⟩)]⟩,
          ⟨⟨0 + 5 - 5 + 7, 0 + 5 - 5, false, true⟩ ::
             List.replicate 65535 Account.initial,
           [(0, ⟨0, ActionKind.Deposit 7, ActionStatus.Fresh⟩)]⟩,
    ?_, h4, rfl, rfl, by simp⟩
  simp only [processAll, h1, h2, h3]

/-- Witness for C6 at a concrete no-op dispute of a Final action. -/
theorem payments_C6_witness :
    processTransaction
      (Payments.mk [⟨5, 0, false, true⟩]
        [(3, ⟨0, ActionKind.Deposit 2, ActionStatus.Final⟩)])
      ⟨3, 0, TransactionKind.Dispute⟩ =
      some (Payments.mk [⟨5, 0, false, true⟩]
        [(3, ⟨0, ActionKind.Deposit 2, ActionStatus.Final⟩)]) ∧
    ((Payments.mk [⟨5, 0, false, true⟩]
        [(3, ⟨0, ActionKind.Deposit 2, ActionStatus.Final⟩)]).actions =
      (Payments.mk [⟨5, 0, false, true⟩]
        [(3, ⟨0, ActionKind.Deposit 2, ActionStatus.Final⟩)]).actions ∧
      ∀ c, totalAt (Payments.mk [⟨5, 0, false, true⟩]
          [(3, ⟨0, ActionKind.Deposit 2, ActionStatus.Final⟩)]) c =
        totalAt (Payments.mk [⟨5, 0, false, true⟩]
          [(3, ⟨0, ActionKind.Deposit 2, ActionStatus.Final⟩)]) c ∧
        heldAt (Payments.mk [⟨5, 0, false, true⟩]
          [(3, ⟨0, ActionKind.Deposit 2, ActionStatus.Final⟩)]) c =
        heldAt (Payments.mk [⟨5, 0, false, true⟩]
          [(3, ⟨0, ActionKind.Deposit 2, ActionStatus.Final⟩)]) c) :=
  ⟨rfl,
   (payments_C6_amended
     (Payments.mk [⟨5, 0, false, true⟩]
       [(3, ⟨0, ActionKind.Deposit 2, ActionStatus.Final⟩)])
     ⟨3, 0, TransactionKind.Dispute⟩
     (Payments.mk [⟨5, 0, false, true⟩]
       [(3, ⟨0, ActionKind.Deposit 2, ActionStatus.Final⟩)]) rfl).1
     ⟨0, ActionKind.Deposit 2, ActionStatus.Final⟩ rfl rfl (by simp)⟩

/-- C9: a well-formed record (client id within the 16-bit range of the
pre-sized 65536-entry table, positive amount on deposits/withdrawals)
always processes to completion: the account lookup succeeds and the
`unreachable!()` arm (modelled by `none`) is never taken. -/
theorem payments_C9_no_fatal :
    ∀ (p : Payments) (t : Transaction),
      p.accounts.length = 65536 → t.cid < 65536 →
      (∀ am, t.kind = TransactionKind.Deposit am ∨
        t.kind = TransactionKind.Withdrawal am → 0 < am) →
      (getAccount p.accounts t.cid).isSome = true ∧
      (processTransaction p t).isSome = true := by
  intro p t hlen hcid hwf
  have hlt : t.cid < p.accounts.length := by rw [hlen]; exact hcid
  obtain ⟨acct, hacct⟩ : ∃ a, getAccount p.accounts t.cid = some a := by
    rw [getAccount_eq_getElem?]
    exact ⟨_, List.getElem?_eq_getElem hlt⟩
  refine ⟨by rw [hacct]; rfl, ?_⟩
  by_cases hl : acct.is_locked
  · rw [step_locked hacct hl]; rfl
  · rw [Bool.not_eq_true] at hl
    obtain ⟨k, c, kind⟩ := t
    cases kind with
    | Deposit am => rw [step_deposit hacct hl]; rfl
    | Withdrawal am =>
      by_cases hav : acct.total - acct.held ≥ am
      · rw [step_withdrawal_ok hacct hl hav]; rfl
      · rw [step_withdrawal_fail hacct hl hav]; rfl
    | Dispute =>
      cases hlook : lookupAction p.actions k with
      | none =>
        rw [step_correction_noop (by simp) hacct hl (Or.inl hlook)]; rfl
      | some a =>
        by_cases hc2 : a.cid = c
        · by_cases hst : a.status = ActionStatus.Fresh
          · cases hak : a.kind with
            | Deposit am =>
              rw [step_dispute_deposit hacct hl hlook hc2 hst hak]; rfl
            | Withdrawal am =>
              rw [step_dispute_withdrawal hacct hl hlook hc2 hst hak]; rfl
          · rw [step_correction_noop (by simp) hacct hl
              (Or.inr ⟨a, hlook, Or.inr (Or.inl ⟨rfl, hst⟩)⟩)]; rfl
        · rw [step_correction_noop (by simp) hacct hl
            (Or.inr ⟨a, hlook, Or.inl hc2⟩)]; rfl
    | Resolve =>
      cases hlook : lookupAction p.actions k with
      | none =>
        rw [step_correction_noop (by simp) hacct hl (Or.inl hlook)]; rfl
      | some a =>
        by_cases hc2 : a.cid = c
        · by_cases hst : a.status = ActionStatus.Disputed
          · cases hak : a.kind with
            | Deposit am =>
              rw [step_resolve_deposit hacct hl hlook hc2 hst hak]; rfl
            | Withdrawal am =>
              rw [step_resolve_withdrawal hacct hl hlook hc2 hst hak]; rfl
          · rw [step_correction_noop (by simp) hacct hl
              (Or.inr ⟨a, hlook, Or.inr (Or.inr ⟨by simp, hst⟩)⟩)]; rfl
        · rw [step_correction_noop (by simp) hacct hl
            (Or.inr ⟨a, hlook, Or.inl hc2⟩)]; rfl
    | Chargeback =>
      cases hlook : lookupAction p.actions k with
      | none =>
        rw [step_correction_noop (by simp) hacct hl (Or.inl hlook)]; rfl
      | some a =>
        by_cases hc2 : a.cid = c
        · by_cases hst : a.status = ActionStatus.Disputed
          · cases hak : a.kind with
            | Deposit am =>
              rw [step_chargeback_deposit hacct hl hlook hc2 hst hak]; rfl
            | Withdrawal am =>
              rw [step_chargeback_withdrawal hacct hl hlook hc2 hst hak]; rfl
          · rw [step_correction_noop (by simp) hacct hl
              (Or.inr ⟨a, hlook, Or.inr (Or.inr ⟨by simp, hst⟩)⟩)]; rfl
        · rw [step_correction_noop (by simp) hacct hl
            (Or.inr ⟨a, hlook, Or.inl hc2⟩)]; rfl

/-- Witness for C9 at a concrete record on the fresh ledger. -/
theorem payments_C9_witness :
    Payments.initial.accounts.length = 65536 ∧ (0 : ℕ) < 65536 ∧
    (getAccount Payments.initial.accounts 0).isSome = true ∧
    (processTransaction Payments.initial
      ⟨0, 0, TransactionKind.Dispute⟩).isSome = true :=
  ⟨List.length_replicate 65536 Account.initial, by decide,
   (payments_C9_no_fatal Payments.initial ⟨0, 0, TransactionKind.Dispute⟩
     (List.length_replicate 65536 Account.initial) (by decide) (by simp)).1,
   (payments_C9_no_fatal Payments.initial ⟨0, 0, TransactionKind.Dispute⟩
     (List.length_replicate 65536 Account.initial) (by decide) (by simp)).2⟩

theorem disputedSum_nonneg {m : List (ℕ × Action)} {c : ℕ}
    (hpos : ∀ kv ∈ m, 0 < actionAmount kv.2.kind) :
    0 ≤ disputedSum m c := by
  induction m with
  | nil => simp [disputedSum]
  | cons kv rest ih =>
    rw [disputedSum]
    have h1 : 0 ≤ (if kv.2.cid = c ∧ kv.2.status = ActionStatus.Disputed
        then actionAmount kv.2.kind else 0) := by
      split
      · exact le_of_lt (hpos kv (by simp))
      · exact le_refl 0
    have h2 : 0 ≤ disputedSum rest c :=
      ih (fun kv2 hm => hpos kv2 (by simp [hm]))
    linarith

theorem removeAction_of_not_mem {m : List (ℕ × Action)} {k : ℕ}
    (h : k ∉ actionKeys m) : removeAction m k = m := by
  induction m with
  | nil => rfl
  | cons kv rest ih =>
    rw [actionKeys, List.map_cons, List.mem_cons] at h
    push_neg at h
    rw [removeAction, if_neg (fun he => h.1 he.symm), ih h.2]

theorem actionKeys_setActionStatus (m : List (ℕ × Action)) (k : ℕ)
    (st : ActionStatus) :
    actionKeys (setActionStatus m k st) = actionKeys m := by
  rw [setActionStatus, actionKeys, actionKeys, List.map_map]
  congr 1
  funext kv
  by_cases h : kv.1 = k
  · simp [h]
  · simp [h]

theorem setActionStatus_of_not_mem {m : List (ℕ × Action)} {k : ℕ}
    (st : ActionStatus) (h : k ∉ actionKeys m) :
    setActionStatus m k st = m := by
  induction m with
  | nil => rfl
  | cons kv rest ih =>
    rw [actionKeys, List.map_cons, List.mem_cons] at h
    push_neg at h
    have h2 : setActionStatus rest k st = rest := ih h.2
    rw [setActionStatus, List.map_cons, if_neg (fun he => h.1 he.symm)]
    rw [setActionStatus] at h2
    rw [h2]

theorem setActionStatus_kind_mem {m : List (ℕ × Action)} {k : ℕ}
    {st : ActionStatus} {kv2 : ℕ × Action}
    (h : kv2 ∈ setActionStatus m k st) :
    ∃ kv ∈ m, kv2.2.kind = kv.2.kind := by
  rw [setActionStatus] at h
  obtain ⟨kv, hkv, he⟩ := List.mem_map.mp h
  refine ⟨kv, hkv, ?_⟩
  by_cases hk : kv.1 = k
  · rw [if_pos hk] at he
    rw [← he]
  · rw [if_neg hk] at he
    rw [← he]

theorem disputedSum_setActionStatus {m : List (ℕ × Action)} {k : ℕ}
    {a : Action} (st : ActionStatus) (c : ℕ)
    (hnd : (actionKeys m).Nodup) (hlook : lookupAction m k = some a) :
    disputedSum (setActionStatus m k st) c =
      disputedSum m c -
        (if a.cid = c ∧ a.status = ActionStatus.Disputed
         then actionAmount a.kind else 0) +
        (if a.cid = c ∧ st = ActionStatus.Disputed
         then actionAmount a.kind else 0) := by
  induction m with
  | nil => exact absurd hlook (by simp [lookupAction])
  | cons kv rest ih =>
    rw [actionKeys, List.map_cons, List.nodup_cons] at hnd
    by_cases hk : kv.1 = k
    · rw [lookupAction, if_pos hk] at hlook
      injection hlook with he
      subst he
      have h2 : setActionStatus rest k st = rest :=
        setActionStatus_of_not_mem st (hk ▸ hnd.1)
      rw [setActionStatus, List.map_cons, if_pos hk]
      rw [setActionStatus] at h2
      rw [h2, disputedSum, disputedSum]
      by_cases hc : kv.2.cid = c
      · by_cases hstd : st = ActionStatus.Disputed <;>
          by_cases hold : kv.2.status = ActionStatus.Disputed <;>
          (simp [hc, hstd, hold]; try ring)
      · simp [hc]
    · rw [lookupAction, if_neg hk] at hlook
      have h3 := ih hnd.2 hlook
      rw [setActionStatus, List.map_cons, if_neg hk]
      rw [setActionStatus] at h3
      rw [disputedSum, h3, disputedSum]
      ring

theorem heldAt_eq {p : Payments} {i : ℕ} {acct : Account}
    (hacct : getAccount p.accounts i = some acct) :
    heldAt p i = acct.held := by
  show ((getAccount p.accounts i).map Account.held).getD 0 = acct.held
  rw [hacct]
  rfl

theorem heldAt_set_self {l : List Account} {m : List (ℕ × Action)} {i : ℕ}
    (A : Account) (h : i < l.length) : heldAt ⟨l.set i A, m⟩ i = A.held := by
  show ((getAccount (l.set i A) i).map Account.held).getD 0 = A.held
  rw [getAccount_set_self _ h]
  rfl

theorem held_inv_update {l : List Account} {m : List (ℕ × Action)}
    {i k : ℕ} {acct A : Account} {a0 : Action} {st : ActionStatus} {d : ℚ}
    (hacct : getAccount l i = some acct) (hA : A.held = acct.held + d)
    (hlook : lookupAction m k = some a0) (hcid : a0.cid = i)
    (hnd : (actionKeys m).Nodup)
    (hheld : ∀ c, heldAt ⟨l, m⟩ c = disputedSum m c)
    (hdelta : (if st = ActionStatus.Disputed then actionAmount a0.kind else 0)
      - (if a0.status = ActionStatus.Disputed
         then actionAmount a0.kind else 0) = d) :
    ∀ c, heldAt ⟨l.set i A, setActionStatus m k st⟩ c =
      disputedSum (setActionStatus m k st) c := by
  intro c
  have hsum := disputedSum_setActionStatus (a := a0) st c hnd hlook
  by_cases hic : i = c
  · subst hic
    rw [heldAt_set_self A (getAccount_some_lt hacct), hsum, hA]
    have h0 := hheld i
    rw [heldAt_eq hacct] at h0
    rw [h0]
    simp only [hcid, true_and, eq_self_iff_true, if_true]
    linarith [hdelta]
  · have hne : ¬ a0.cid = c := by rw [hcid]; exact hic
    rw [hsum]
    simp only [hne, false_and, if_false]
    show ((getAccount (l.set i A) c).map Account.held).getD 0 = _
    rw [getAccount_set_ne _ hic]
    have h0 := hheld c
    rw [show heldAt ⟨l, m⟩ c =
      ((getAccount l c).map Account.held).getD 0 from rfl] at h0
    rw [h0]
    ring

theorem inv_after_statusUpdate {l : List Account} {m : List (ℕ × Action)}
    {i k : ℕ} {acct A : Account} {a0 : Action} {st : ActionStatus} {d : ℚ}
    (hacct : getAccount l i = some acct) (hA : A.held = acct.held + d)
    (hlook : lookupAction m k = some a0) (hcid : a0.cid = i)
    (hnd : (actionKeys m).Nodup)
    (hpos : ∀ kv ∈ m, 0 < actionAmount kv.2.kind)
    (hheld : ∀ c, heldAt ⟨l, m⟩ c = disputedSum m c)
    (hdelta : (if st = ActionStatus.Disputed then actionAmount a0.kind else 0)
      - (if a0.status = ActionStatus.Disputed
         then actionAmount a0.kind else 0) = d) :
    Inv ⟨l.set i A, setActionStatus m k st⟩ := by
  refine ⟨?_, ?_, ?_⟩
  · show (actionKeys (setActionStatus m k st)).Nodup
    rw [actionKeys_setActionStatus]
    exact hnd
  · intro kv2 hkv2
    obtain ⟨kv, hkv, hkind⟩ := setActionStatus_kind_mem hkv2
    rw [hkind]
    exact hpos kv hkv
  · exact held_inv_update hacct hA hlook hcid hnd hheld hdelta

theorem inv_after_insert {l : List Account} {m : List (ℕ × Action)}
    {i k : ℕ} {acct A : Account} {new : Action}
    (hacct : getAccount l i = some acct) (hA : A.held = acct.held)
    (hnew : new.status = ActionStatus.Fresh)
    (hposnew : 0 < actionAmount new.kind)
    (hni : k ∉ actionKeys m) (hnd : (actionKeys m).Nodup)
    (hpos : ∀ kv ∈ m, 0 < actionAmount kv.2.kind)
    (hheld : ∀ c, heldAt ⟨l, m⟩ c = disputedSum m c) :
    Inv ⟨l.set i A, insertAction m k new⟩ := by
  have hins : insertAction m k new = (k, new) :: m := by
    rw [insertAction, removeAction_of_not_mem hni]
  refine ⟨?_, ?_, ?_⟩
  · show (actionKeys (insertAction m k new)).Nodup
    rw [hins, actionKeys, List.map_cons, List.nodup_cons]
    exact ⟨hni, hnd⟩
  · intro kv hkv
    rw [show (⟨l.set i A, insertAction m k new⟩ : Payments).actions =
      insertAction m k new from rfl, hins, List.mem_cons] at hkv
    rcases hkv with he | hm
    · rw [he]
      exact hposnew
    · exact hpos kv hm
  · intro c
    have hsum : disputedSum (insertAction m k new) c = disputedSum m c := by
      rw [hins, disputedSum]
      simp [hnew]
    rw [show (⟨l.set i A, insertAction m k new⟩ : Payments).actions =
      insertAction m k new from rfl, hsum]
    exact (heldAt_mk_set hacct hA c).trans (hheld c)

theorem inv_same_actions {l : List Account} {m : List (ℕ × Action)}
    {i : ℕ} {acct A : Account}
    (hacct : getAccount l i = some acct) (hA : A.held = acct.held)
    (hnd : (actionKeys m).Nodup)
    (hpos : ∀ kv ∈ m, 0 < actionAmount kv.2.kind)
    (hheld : ∀ c, heldAt ⟨l, m⟩ c = disputedSum m c) :
    Inv ⟨l.set i A, m⟩ :=
  ⟨hnd, hpos, fun c => (heldAt_mk_set hacct hA c).trans (hheld c)⟩

theorem step_preserves_inv {p : Payments} {t : Transaction} {p' : Payments}
    (h : processTransaction p t = some p') (hinv : Inv p) (hwf : WellFormed t)
    (hfresh : ∀ k, depwdTid t = some k → k ∉ actionKeys p.actions) :
    Inv p' ∧ ∀ k, k ∈ actionKeys p'.actions →
      k ∈ actionKeys p.actions ∨ depwdTid t = some k := by
  obtain ⟨hnd, hpos, hheld⟩ := hinv
  cases step_cases h with
  | locked acct hacct hl =>
    exact ⟨⟨hnd, hpos, hheld⟩, fun k hk => Or.inl hk⟩
  | deposit acct am hacct hl hk =>
    have hdep : depwdTid t = some t.tid := by simp [depwdTid, hk]
    have hni : t.tid ∉ actionKeys p.actions := hfresh t.tid hdep
    refine ⟨inv_after_insert hacct rfl rfl (hwf.2 am (Or.inl hk))
      hni hnd hpos hheld, ?_⟩
    intro k hk2
    replace hk2 : k ∈ actionKeys (insertAction p.actions t.tid
      ⟨t.cid, ActionKind.Deposit am, ActionStatus.Fresh⟩) := hk2
    rw [insertAction, removeAction_of_not_mem hni, actionKeys,
      List.map_cons, List.mem_cons] at hk2
    rcases hk2 with he | hm
    · right
      rw [he]
      exact hdep
    · exact Or.inl hm
  | wdOk acct am hacct hl hk hav =>
    have hdep : depwdTid t = some t.tid := by simp [depwdTid, hk]
    have hni : t.tid ∉ actionKeys p.actions := hfresh t.tid hdep
    refine ⟨inv_after_insert hacct rfl rfl (hwf.2 am (Or.inr hk))
      hni hnd hpos hheld, ?_⟩
    intro k hk2
    replace hk2 : k ∈ actionKeys (insertAction p.actions t.tid
      ⟨t.cid, ActionKind.Withdrawal am, ActionStatus.Fresh⟩) := hk2
    rw [insertAction, removeAction_of_not_mem hni, actionKeys,
      List.map_cons, List.mem_cons] at hk2
    rcases hk2 with he | hm
    · right
      rw [he]
      exact hdep
    · exact Or.inl hm
  | wdFail acct am hacct hl hk hav =>
    exact ⟨inv_same_actions hacct rfl hnd hpos hheld, fun k hk2 => Or.inl hk2⟩
  | noop acct hacct hl hcorr hno =>
    exact ⟨inv_same_actions hacct rfl hnd hpos hheld, fun k hk2 => Or.inl hk2⟩
  | disputeDep acct a0 am hacct hl hk hlook0 hcid hst0 hak =>
    refine ⟨inv_after_statusUpdate hacct rfl hlook0 hcid hnd hpos hheld
      (by simp [hst0, hak, actionAmount]), ?_⟩
    intro k hk2
    replace hk2 : k ∈ actionKeys
      (setActionStatus p.actions t.tid ActionStatus.Disputed) := hk2
    rw [actionKeys_setActionStatus] at hk2
    exact Or.inl hk2
  | disputeWd acct a0 am hacct hl hk hlook0 hcid hst0 hak =>
    refine ⟨inv_after_statusUpdate hacct rfl hlook0 hcid hnd hpos hheld
      (by simp [hst0, hak, actionAmount]), ?_⟩
    intro k hk2
    replace hk2 : k ∈ actionKeys
      (setActionStatus p.actions t.tid ActionStatus.Disputed) := hk2
    rw [actionKeys_setActionStatus] at hk2
    exact Or.inl hk2
  | resolveDep acct a0 am hacct hl hk hlook0 hcid hst0 hak =>
    refine ⟨inv_after_statusUpdate (d := -am) hacct (by ring) hlook0 hcid hnd hpos hheld
      (by simp [hst0, hak, actionAmount]), ?_⟩
    intro k hk2
    replace hk2 : k ∈ actionKeys
      (setActionStatus p.actions t.tid ActionStatus.Final) := hk2
    rw [actionKeys_setActionStatus] at hk2
    exact Or.inl hk2
  | resolveWd acct a0 am hacct hl hk hlook0 hcid hst0 hak =>
    refine ⟨inv_after_statusUpdate (d := -am) hacct (by ring) hlook0 hcid hnd hpos hheld
      (by simp [hst0, hak, actionAmount]), ?_⟩
    intro k hk2
    replace hk2 : k ∈ actionKeys
      (setActionStatus p.actions t.tid ActionStatus.Final) := hk2
    rw [actionKeys_setActionStatus] at hk2
    exact Or.inl hk2
  | cbDep acct a0 am hacct hl hk hlook0 hcid hst0 hak =>
    refine ⟨inv_after_statusUpdate (d := -am) hacct (by ring) hlook0 hcid hnd hpos hheld
      (by simp [hst0, hak, actionAmount]), ?_⟩
    intro k hk2
    replace hk2 : k ∈ actionKeys
      (setActionStatus p.actions t.tid ActionStatus.Final) := hk2
    rw [actionKeys_setActionStatus] at hk2
    exact Or.inl hk2
  | cbWd acct a0 am hacct hl hk hlook0 hcid hst0 hak =>
    refine ⟨inv_after_statusUpdate (d := -am) hacct (by ring) hlook0 hcid hnd hpos hheld
      (by simp [hst0, hak, actionAmount]), ?_⟩
    intro k hk2
    replace hk2 : k ∈ actionKeys
      (setActionStatus p.actions t.tid ActionStatus.Final) := hk2
    rw [actionKeys_setActionStatus] at hk2
    exact Or.inl hk2

theorem processAll_inv {ts : List Transaction} {p p' : Payments}
    (h : processAll p ts = some p') (hinv : Inv p)
    (hwf : ∀ t ∈ ts, WellFormed t)
    (hnodup : (ts.filterMap depwdTid).Nodup)
    (hdisj : ∀ k ∈ ts.filterMap depwdTid, k ∉ actionKeys p.actions) :
    Inv p' := by
  induction ts generalizing p with
  | nil =>
    rw [processAll] at h
    cases h
    exact hinv
  | cons t ts ih =>
    rw [processAll] at h
    cases hstep : processTransaction p t with
    | none => rw [hstep] at h; exact absurd h (by simp)
    | some q =>
      rw [hstep] at h
      have hfresh : ∀ k, depwdTid t = some k →
          k ∉ actionKeys p.actions := by
        intro k hk
        apply hdisj
        rw [List.filterMap_cons, hk]
        exact List.mem_cons_self _ _
      obtain ⟨hinvq, hsub⟩ :=
        step_preserves_inv hstep hinv (hwf t (by simp)) hfresh
      have hnodup2 : (ts.filterMap depwdTid).Nodup := by
        have h2 := hnodup
        rw [List.filterMap_cons] at h2
        cases hdt : depwdTid t with
        | none => rw [hdt] at h2; exact h2
        | some k0 => rw [hdt] at h2; exact (List.nodup_cons.mp h2).2
      have hdisj2 : ∀ k ∈ ts.filterMap depwdTid,
          k ∉ actionKeys q.actions := by
        intro k hkmem hkq
        rcases hsub k hkq with hkp | hkt
        · refine hdisj k ?_ hkp
          rw [List.filterMap_cons]
          cases hdt : depwdTid t with
          | none => exact hkmem
          | some k0 => exact List.mem_cons_of_mem _ hkmem
        · have h2 := hnodup
          rw [List.filterMap_cons, hkt] at h2
          exact absurd hkmem (List.nodup_cons.mp h2).1
      exact ih h hinvq (fun t2 ht2 => hwf t2 (by simp [ht2])) hnodup2 hdisj2

/-- C10: starting from the fresh ledger, after any sequence of well-formed
records whose deposit/withdrawal transaction ids are pairwise distinct,
every account's `held` equals the sum of the amounts of that client's
currently Disputed actions; in particular `held` is never negative. -/
theorem payments_C10_held_invariant :
    ∀ (ts : List Transaction) (p' : Payments),
      (∀ t ∈ ts, WellFormed t) →
      (ts.filterMap depwdTid).Nodup →
      processAll Payments.initial ts = some p' →
      ∀ c, heldAt p' c = disputedSum p'.actions c ∧ 0 ≤ heldAt p' c := by
  intro ts p' hwf hnd h c
  have hinv0 : Inv Payments.initial := by
    refine ⟨?_, ?_, ?_⟩
    · show (actionKeys ([] : List (ℕ × Action))).Nodup
      simp [actionKeys]
    · intro kv hkv
      replace hkv : kv ∈ ([] : List (ℕ × Action)) := hkv
      simp at hkv
    · intro c2
      show ((getAccount Payments.initial.accounts c2).map Account.held).getD 0
        = disputedSum Payments.initial.actions c2
      rw [show Payments.initial.actions = [] from rfl, disputedSum]
      rw [show Payments.initial.accounts =
        List.replicate 65536 Account.initial from rfl]
      rw [getAccount_eq_getElem?, List.getElem?_replicate]
      split
      · rfl
      · rfl
  have hfin := processAll_inv h hinv0 hwf hnd
    (by intro k hk
        show k ∉ actionKeys ([] : List (ℕ × Action))
        simp [actionKeys])
  refine ⟨hfin.2.2 c, ?_⟩
  rw [hfin.2.2 c]
  exact disputedSum_nonneg hfin.2.1

/-- Witness for C10 after a single concrete deposit. -/
theorem payments_C10_witness :
    (∀ t ∈ [(⟨0, 0, TransactionKind.Deposit 2⟩ : Transaction)],
      WellFormed t) ∧
    ([(⟨0, 0, TransactionKind.Deposit 2⟩ : Transaction)].filterMap
      depwdTid).Nodup ∧
    processAll Payments.initial [⟨0, 0, TransactionKind.Deposit 2⟩] =
      some ⟨⟨0 + 2, 0, false, true⟩ :: List.replicate 65535 Account.initial,
            [(0, ⟨0, ActionKind.Deposit 2, ActionStatus.Fresh⟩)]⟩ ∧
    (heldAt ⟨⟨0 + 2, 0, false, true⟩ ::
        List.replicate 65535 Account.initial,
        [(0, ⟨0, ActionKind.Deposit 2, ActionStatus.Fresh⟩)]⟩ 0 =
      disputedSum [(0, ⟨0, ActionKind.Deposit 2, ActionStatus.Fresh⟩)] 0 ∧
     0 ≤ heldAt ⟨⟨0 + 2, 0, false, true⟩ ::
        List.replicate 65535 Account.initial,
        [(0, ⟨0, ActionKind.Deposit 2, ActionStatus.Fresh⟩)]⟩ 0) :=
  ⟨by simp [WellFormed], by simp [depwdTid], rfl,
   payments_C10_held_invariant [⟨0, 0, TransactionKind.Deposit 2⟩]
     ⟨⟨0 + 2, 0, false, true⟩ :: List.replicate 65535 Account.initial,
      [(0, ⟨0, ActionKind.Deposit 2, ActionStatus.Fresh⟩)]⟩
     (by simp [WellFormed]) (by simp [depwdTid]) rfl 0⟩

theorem roundHalfEven_spec (x : ℚ) :
    |((roundHalfEven x : ℤ) : ℚ) - x| ≤ 1/2 ∧
    (|((roundHalfEven x : ℤ) : ℚ) - x| = 1/2 → Even (roundHalfEven x)) := by
  have h0 : (0 : ℚ) ≤ x - Int.floor x := by
    have := Int.floor_le x
    linarith
  have h1 : x - Int.floor x < 1 := by
    have := Int.lt_floor_add_one x
    linarith
  rw [roundHalfEven]
  split_ifs with h2 h3 h4
  · constructor
    · rw [abs_sub_comm, abs_of_nonneg h0]
      linarith
    · intro he
      rw [abs_sub_comm, abs_of_nonneg h0] at he
      linarith
  · constructor
    · rw [abs_of_nonneg (by push_cast; linarith)]
      push_cast
      linarith
    · intro he
      rw [abs_of_nonneg (by push_cast; linarith)] at he
      push_cast at he
      linarith
  · have hr : x - Int.floor x = 1/2 := by linarith
    constructor
    · rw [abs_sub_comm, abs_of_nonneg h0, hr]
    · intro _
      exact h4
  · have hr : x - Int.floor x = 1/2 := by linarith
    constructor
    · rw [abs_of_nonneg (by push_cast; linarith)]
      push_cast
      linarith
    · intro _
      exact Int.even_add_one.mpr h4

/-- C8 counterexample: the stored value 0.00025 prints as 0.0002
(banker's rounding to the even digit), while half-up would give 0.0003. -/
theorem payments_C8_counterexample :
    (toOutputRow 0 ⟨1/4000, 0, false, true⟩).total = 2 ∧
    roundHalfUp ((1/4000 : ℚ) * 10000) = 3 ∧ ((2 : ℤ) ≠ 3) := by
  have hx : ((1/4000 : ℚ) * 10000) = 5/2 := by norm_num
  have hfl : Int.floor ((5:ℚ)/2) = 2 := by
    rw [Int.floor_eq_iff]
    constructor
    · norm_num
    · norm_num
  refine ⟨?_, ?_, by norm_num⟩
  · show serialize_decimal_4dp (1/4000) = 2
    rw [serialize_decimal_4dp, hx, roundHalfEven, hfl]
    norm_num
  · rw [hx, roundHalfUp, hfl]
    norm_num

/-- C8 (amended): every decimal value in an emitted output row is
serialized with exactly 4 fractional digits (the field is an integer
count of 10⁻⁴ units), rounded half-to-even — nearest value, ties to
the even last digit — from the stored precision. -/
theorem payments_C8_amended :
    ∀ (c : ℕ) (acct : Account),
      rounded4dpHalfEven (acct.total - acct.held)
        (toOutputRow c acct).available ∧
      rounded4dpHalfEven acct.held (toOutputRow c acct).held ∧
      rounded4dpHalfEven acct.total (toOutputRow c acct).total :=
  fun _ acct =>
    ⟨roundHalfEven_spec ((acct.total - acct.held) * 10000),
     roundHalfEven_spec (acct.held * 10000),
     roundHalfEven_spec (acct.total * 10000)⟩

/-- Witness for C8 at a concrete account holding 0.00025. -/
theorem payments_C8_witness :
    rounded4dpHalfEven ((1:ℚ)/4000)
      (toOutputRow 0 ⟨1/4000, 0, false, true⟩).total :=
  (payments_C8_amended 0 ⟨1/4000, 0, false, true⟩).2.2

end Kekeke
